import Mathlib

/-!
# crossArea.c : rotationally averaged projected cross section

A shallow embedding of `src/crossArea.c` and theorems about it.

Conventions of the embedding.

* C `float` / `double` values are elements of an arbitrary linearly ordered field `K` with a
  floor function (exact arithmetic).  Instantiating `K := ℚ` makes every definition executable;
  instantiating `K := ℝ` gives access to the real `sin`, `cos` and `sqrt`.
* C `int` values are unbounded integers (`ℤ`), counts and array offsets that are never negative
  are natural numbers.
* The functions of `math.h` and `stdlib.h` that the program calls (`sin`, `cos`, `sqrt`, `rand`,
  the constant `RAND_MAX`) are parameters, collected in `CLib`.
* Arrays (`crds`, `atomicRadii`, `RStheta`, `RS_proj`, `atomTags`, `lookupGrid`) are total maps
  from the offset to the content.  A pointer `&atoms[k]` is the offset `k`, `NULL` is `none`.
* `while` loops whose termination depends on the heap take a fuel argument and return `none`
  when it is exhausted; `for` loops with a counter are folds or recursions on the counter.
-/

set_option linter.unusedSectionVars false

namespace CrossArea

/-- The constant `MIN_GUESSES` of line 12. -/
def MIN_GUESSES : ℤ := 100

/-- The constant `PI` of line 14, the decimal literal itself. -/
def PI {K : Type} [LinearOrderedField K] : K := 31415926535897932 / 10000000000000000

/-- Library functions the program calls: `sin`, `cos`, `sqrt` of `math.h`, the stream of values
returned by successive calls of `rand()` and the constant `RAND_MAX` of `stdlib.h`. -/
structure CLib (K : Type) where
  sin : K → K
  cos : K → K
  sqrt : K → K
  rand : ℕ → ℤ
  RAND_MAX : ℤ

/-- Modelled from the spec: the type `PDB_STRUCT_T` is declared in `getPdbStructure.h`, which is
not among the sources; these are the fields `crossArea.c` reads and writes (the atom table of
the spec's data model: atom count, flat coordinate array, radii, box side, largest radius). -/
structure PDB_STRUCT_T (K : Type) where
  nAtoms : ℕ
  crds : ℕ → K
  atomicRadii : ℕ → K
  L : K
  largestAtomicRadius : K

/-- The list node `struct atom_tag` of lines 19-24. -/
structure ATOM_T (K : Type) where
  next : Option ℕ
  gridX : K
  gridY : K
  id : ℕ

/-- One evaluation of the convergence check, lines 308-312: the guess count and hit count it
was made at and the three values it computes. -/
structure ConvCheck (K : Type) where
  guessIndex : ℤ
  hitCount : ℤ
  p_hit : K
  stdDevEstimate : K
  errorRatio : K

/-- State at the exit of the guess loop of lines 251-325: the variables `guessIndex` and
`hitCount`, the number of calls of `rand()` made so far, whether the loop was left by
`break`, and the convergence checks evaluated, oldest first. -/
structure GuessExit (K : Type) where
  guessIndex : ℤ
  hitCount : ℤ
  randIdx : ℕ
  broke : Bool
  checks : List (ConvCheck K)

/-- Record of one orientation, lines 226-348: the angles, the exit state of its guess loop,
the number of `rand()` calls the loop made (two per guess), and the values computed in lines
334-339 and printed by line 347. -/
structure Orientation (K : Type) where
  theta : K
  phi : K
  guessIndex : ℤ
  hitCount : ℤ
  randCalls : ℕ
  broke : Bool
  checks : List (ConvCheck K)
  p_hit : K
  areaEstimate : K
  stdDevEstimate : K

/-- Variables and heap of `crossArea` that the orientation loops update: the accumulators of
lines 192-194, the position in the `rand()` stream, the buffers `RStheta`, `RS_proj`,
`atomTags`, `lookupGrid`, and the orientations completed so far, oldest first. -/
structure CrossState (K : Type) where
  angleCount : ℤ
  meanArea : K
  meanError : K
  randIdx : ℕ
  RStheta : ℕ → K
  RS_proj : ℕ → K
  atomTags : ℕ → ATOM_T K
  lookupGrid : ℤ → Option ℕ
  log : List (Orientation K)

/-- What a call of `crossArea` leaves: the structure `*PDB_struct` after the call, the final
`angleCount`, the returned mean area, the mean error and the printed "Total ESE", and the
orientations visited, oldest first. -/
structure CrossResult (K : Type) where
  PDB_struct : PDB_STRUCT_T K
  angleCount : ℤ
  meanArea : K
  meanError : K
  totalESE : K
  log : List (Orientation K)

section Embedding

variable {K : Type} [LinearOrderedField K] [FloorRing K]

/-- The C conversion `(int) v` of a floating value: truncation toward zero. -/
def toInt (v : K) : ℤ := if 0 ≤ v then ⌊v⌋ else ⌈v⌉

/-- The call `memset( lookupGrid, 0, lookupGridLength * lookupGridLength * sizeof(ATOM_T *) )`
of line 375: the first `lookupGridLength * lookupGridLength` heads become `NULL`. -/
def memsetGrid (lookupGrid : ℤ → Option ℕ) (lookupGridLength : ℤ) : ℤ → Option ℕ :=
  fun g => if 0 ≤ g ∧ g < lookupGridLength * lookupGridLength then none else lookupGrid g

/-- One iteration of the loop of lines 381-413 of `fillLookupGrid`, for atom `atomIndex`
(`crdIndex = 3 * atomIndex`), on the pair (grid heads, atom nodes). -/
def fillLookupGridStep (lookupGridLength : ℤ) (RS_proj : ℕ → K) (PDB_struct : PDB_STRUCT_T K)
    (gasRadius : K) (st : (ℤ → Option ℕ) × (ℕ → ATOM_T K)) (atomIndex : ℕ) :
    (ℤ → Option ℕ) × (ℕ → ATOM_T K) :=
  let lookupGrid := st.1
  let atoms := st.2
  let l := PDB_struct.L * (1 / 2)
  let crdIndex := 3 * atomIndex
  let x := RS_proj crdIndex
  let y := RS_proj (crdIndex + 1)
  let i := toInt ((x + l) / (gasRadius + PDB_struct.largestAtomicRadius))
  let j := toInt ((y + l) / (gasRadius + PDB_struct.largestAtomicRadius))
  let gridIndex := i * lookupGridLength + j
  match lookupGrid gridIndex with
  | none =>
    (Function.update lookupGrid gridIndex (some atomIndex),
     Function.update atoms atomIndex
       { next := none, gridX := x, gridY := y, id := (atoms atomIndex).id })
  | some head =>
    (Function.update lookupGrid gridIndex (some atomIndex),
     Function.update atoms atomIndex
       { next := some head, gridX := x, gridY := y, id := (atoms atomIndex).id })

/-- The function `fillLookupGrid` of lines 361-417: clear the heads, then insert every atom at
the head of the list of its cell.  Returns the new heads and the new atom nodes. -/
def fillLookupGrid (lookupGrid : ℤ → Option ℕ) (lookupGridLength : ℤ) (RS_proj : ℕ → K)
    (atoms : ℕ → ATOM_T K) (PDB_struct : PDB_STRUCT_T K) (gasRadius : K) :
    (ℤ → Option ℕ) × (ℕ → ATOM_T K) :=
  let nAtoms := PDB_struct.nAtoms
  (List.range nAtoms).foldl (fillLookupGridStep lookupGridLength RS_proj PDB_struct gasRadius)
    (memsetGrid lookupGrid lookupGridLength, atoms)

/-- The function `testGridSquare` of lines 529-557: walk the list starting at `gridAtom`,
return 1 at the first node closer than its clearance to `(x, y)`, 0 at the end of the list.
The `while` loop runs on `fuel`; `none` means the fuel ran out before the list ended. -/
def testGridSquare (atoms : ℕ → ATOM_T K) :
    ℕ → Option ℕ → PDB_STRUCT_T K → K → K → K → Option ℤ
  | _, none, _, _, _, _ => some 0
  | 0, some _, _, _, _, _ => none
  | fuel + 1, some p, PDB_struct, x, y, gasRadius =>
    let gridAtom := atoms p
    let xx := x - gridAtom.gridX
    let yy := y - gridAtom.gridY
    let xx := xx * xx
    let yy := yy * yy
    let clearance := gasRadius + PDB_struct.atomicRadii gridAtom.id
    if xx + yy < clearance * clearance then some 1
    else testGridSquare atoms fuel gridAtom.next PDB_struct x y gasRadius

/-- The pattern `if( testGridSquare( ... ) == 1 ) return( 1 );` followed by the rest of the
function: a hit returns 1 at once, a miss continues with `rest`, a walk that does not end
does not return. -/
def orElse (r : Option ℤ) (rest : Option ℤ) : Option ℤ :=
  match r with
  | none => none
  | some v => if v = 1 then some 1 else rest

/-- The function `lookupGridTestCollision` of lines 418-526: test the cell of `(x, y)` and
those of its eight neighbours that the guards on `i` and `j` admit, in the order of the
source. -/
def lookupGridTestCollision (fuel : ℕ) (atoms : ℕ → ATOM_T K) (x y : K)
    (lookupGrid : ℤ → Option ℕ) (lookupGridLength : ℤ) (PDB_struct : PDB_STRUCT_T K)
    (gasRadius : K) : Option ℤ :=
  let l := PDB_struct.L * (1 / 2)
  let i := toInt ((l + x) / (gasRadius + PDB_struct.largestAtomicRadius))
  let j := toInt ((l + y) / (gasRadius + PDB_struct.largestAtomicRadius))
  let cell := fun (gridIndex : ℤ) =>
    testGridSquare atoms fuel (lookupGrid gridIndex) PDB_struct x y gasRadius
  let rowAbove := fun (rest : Option ℤ) =>
    if i > 0 then
      (if j > 0 then orElse (cell ((i - 1) * lookupGridLength + j - 1)) else id) <|
      orElse (cell ((i - 1) * lookupGridLength + j)) <|
      (if j < lookupGridLength - 1 then orElse (cell ((i - 1) * lookupGridLength + j + 1))
       else id) <| rest
    else rest
  let rowBelow := fun (rest : Option ℤ) =>
    if i < lookupGridLength - 1 then
      (if j > 0 then orElse (cell ((i + 1) * lookupGridLength + j - 1)) else id) <|
      orElse (cell ((i + 1) * lookupGridLength + j)) <|
      (if j < lookupGridLength - 1 then orElse (cell ((i + 1) * lookupGridLength + j + 1))
       else id) <| rest
    else rest
  orElse (cell (i * lookupGridLength + j)) <|
  rowAbove <|
  (if j > 0 then orElse (cell (i * lookupGridLength + j - 1)) else id) <|
  (if j < lookupGridLength - 1 then orElse (cell (i * lookupGridLength + j + 1)) else id) <|
  rowBelow <|
  some 0

/-- The exhaustive scan of the `NO_LUT` branch, lines 279-298: the loop over `atomIndex`
from `atomIndex` on, as the amount (0 or 1) it adds to `hitCount`.  `remaining` counts the
atoms still to visit. -/
def exhaustiveScan (RS_proj : ℕ → K) (PDB_struct : PDB_STRUCT_T K) (gasRadius : K)
    (point0 point1 : K) : ℕ → ℕ → ℤ
  | 0, _ => 0
  | remaining + 1, atomIndex =>
    let crdIndex := 3 * atomIndex
    let vectorDistance0 := point0 - RS_proj crdIndex
    let vectorDistance1 := point1 - RS_proj (crdIndex + 1)
    let clearance := PDB_struct.atomicRadii atomIndex + gasRadius
    let distance := vectorDistance0 * vectorDistance0 + vectorDistance1 * vectorDistance1
    if distance ≤ clearance * clearance then 1
    else exhaustiveScan RS_proj PDB_struct gasRadius point0 point1 remaining (atomIndex + 1)

/-- The convergence check of lines 308-312 at `guessIndex` guesses and `hitCount` hits. -/
def convCheck (lib : CLib K) (guessIndex hitCount : ℤ) : ConvCheck K :=
  let p_hit : K := (hitCount : K) / (guessIndex : K)
  let stdDevEstimate := lib.sqrt (p_hit * (1 - p_hit) / (guessIndex : K))
  let errorRatio := stdDevEstimate / p_hit
  { guessIndex := guessIndex, hitCount := hitCount, p_hit := p_hit,
    stdDevEstimate := stdDevEstimate, errorRatio := errorRatio }

/-- The condition of line 319 under which the guess loop is left by `break`. -/
def stopNow (c : ConvCheck K) : Bool :=
  decide (c.errorRatio < 1 / 1000 ∧ c.p_hit ≠ 0 ∧ c.p_hit ≠ 1)

/-- Lines 255-301: draw the point with two calls of `rand()`, apply the corner test of line
264 and the collision test (`NO_LUT` selects the exhaustive scan); the amount added to
`hitCount`, `none` if the list walk of the grid test does not end within `chainFuel`. -/
def guessHit (lib : CLib K) (NO_LUT : Bool) (chainFuel : ℕ) (atoms : ℕ → ATOM_T K)
    (lookupGrid : ℤ → Option ℕ) (lookupGridLength : ℤ) (RS_proj : ℕ → K)
    (PDB_struct : PDB_STRUCT_T K) (gasRadius : K) (randIdx : ℕ) : Option ℤ :=
  let point0 := (((lib.rand randIdx : ℤ) : K) / (lib.RAND_MAX : K) - 1 / 2) * PDB_struct.L
  let point1 := (((lib.rand (randIdx + 1) : ℤ) : K) / (lib.RAND_MAX : K) - 1 / 2) * PDB_struct.L
  let pointFromOrigin := point0 * point0 + point1 * point1
  let usePointsInside := PDB_struct.L
  let usePointsInside := usePointsInside * usePointsInside
  if pointFromOrigin ≤ usePointsInside then
    if NO_LUT then
      some (exhaustiveScan RS_proj PDB_struct gasRadius point0 point1 PDB_struct.nAtoms 0)
    else
      lookupGridTestCollision chainFuel atoms point0 point1 lookupGrid lookupGridLength
        PDB_struct gasRadius
  else some 0

/-- The guess loop of lines 252-325, entered at the loop test with the given `guessIndex`,
`hitCount`, position in the `rand()` stream and checks made so far.  One unit of `fuel` is
spent per iteration; `none` means that the fuel ran out or that a list walk did not end. -/
def guessLoop (lib : CLib K) (NO_LUT : Bool) (chainFuel : ℕ) (atoms : ℕ → ATOM_T K)
    (lookupGrid : ℤ → Option ℕ) (lookupGridLength : ℤ) (RS_proj : ℕ → K)
    (PDB_struct : PDB_STRUCT_T K) (gasRadius : K) :
    ℕ → ℤ → ℤ → ℕ → List (ConvCheck K) → Option (GuessExit K)
  | 0, guessIndex, hitCount, randIdx, checks =>
    if (guessIndex : K) ≤ PDB_struct.L * PDB_struct.L then none
    else some { guessIndex := guessIndex, hitCount := hitCount, randIdx := randIdx,
                broke := false, checks := checks }
  | fuel + 1, guessIndex, hitCount, randIdx, checks =>
    if (guessIndex : K) ≤ PDB_struct.L * PDB_struct.L then
      match guessHit lib NO_LUT chainFuel atoms lookupGrid lookupGridLength RS_proj PDB_struct
          gasRadius randIdx with
      | none => none
      | some hit =>
        let hitCount := hitCount + hit
        let randIdx := randIdx + 2
        if guessIndex % 100 = 0 then
          if guessIndex ≥ MIN_GUESSES then
            let c := convCheck lib guessIndex hitCount
            if stopNow c then
              some { guessIndex := guessIndex, hitCount := hitCount, randIdx := randIdx,
                     broke := true, checks := checks ++ [c] }
            else
              guessLoop lib NO_LUT chainFuel atoms lookupGrid lookupGridLength RS_proj
                PDB_struct gasRadius fuel (guessIndex + 1) hitCount randIdx (checks ++ [c])
          else
            guessLoop lib NO_LUT chainFuel atoms lookupGrid lookupGridLength RS_proj
              PDB_struct gasRadius fuel (guessIndex + 1) hitCount randIdx checks
        else
          guessLoop lib NO_LUT chainFuel atoms lookupGrid lookupGridLength RS_proj
            PDB_struct gasRadius fuel (guessIndex + 1) hitCount randIdx checks
    else some { guessIndex := guessIndex, hitCount := hitCount, randIdx := randIdx,
                broke := false, checks := checks }

/-- The loop of lines 209-215: rotate every atom about the x axis into `RStheta`, with the
matrix entries `Rx[1][1]`, `Rx[1][2]`, `Rx[2][1]`, `Rx[2][2]`. -/
def rotateAboutX (Rx11 Rx12 Rx21 Rx22 : K) (PDB_struct : PDB_STRUCT_T K) (RStheta : ℕ → K) :
    ℕ → K :=
  (List.range PDB_struct.nAtoms).foldl (fun RStheta atom =>
    let crdIndex := 3 * atom
    let RStheta := Function.update RStheta crdIndex (PDB_struct.crds crdIndex)
    let RStheta := Function.update RStheta (crdIndex + 1)
      (Rx11 * PDB_struct.crds (crdIndex + 1) + Rx12 * PDB_struct.crds (crdIndex + 2))
    Function.update RStheta (crdIndex + 2)
      (Rx21 * PDB_struct.crds (crdIndex + 1) + Rx22 * PDB_struct.crds (crdIndex + 2)))
    RStheta

/-- The loop of lines 233-239: rotate about the y axis and project into the x-y plane, with
the matrix entries `Ry_andProj[0][0]` and `Ry_andProj[0][2]`. -/
def rotateAndProject (Ry00 Ry02 : K) (PDB_struct : PDB_STRUCT_T K) (RStheta : ℕ → K)
    (RS_proj : ℕ → K) : ℕ → K :=
  (List.range PDB_struct.nAtoms).foldl (fun RS_proj atom =>
    let crdIndex := 3 * atom
    let RS_proj := Function.update RS_proj crdIndex
      (Ry00 * RStheta crdIndex + Ry02 * RStheta (crdIndex + 2))
    let RS_proj := Function.update RS_proj (crdIndex + 1) (RStheta (crdIndex + 1))
    Function.update RS_proj (crdIndex + 2) 0)
    RS_proj

/-- The body of the loop over `phiStep`, lines 226-348, for one orientation. -/
def phiBody (lib : CLib K) (NO_LUT : Bool) (PDB_struct : PDB_STRUCT_T K) (gasRadius : K)
    (lookupGridLength : ℤ) (theta : K) (nPhiSteps : ℤ) (st : CrossState K) (phiStep : ℤ) :
    Option (CrossState K) :=
  let phi : K := 2 * PI * (phiStep : K) / (nPhiSteps : K)
  let Ry00 := lib.cos phi
  let Ry02 := lib.sin phi
  let RS_proj := rotateAndProject Ry00 Ry02 PDB_struct st.RStheta st.RS_proj
  let filled := fillLookupGrid st.lookupGrid lookupGridLength RS_proj st.atomTags PDB_struct
    gasRadius
  let lookupGrid := filled.1
  let atomTags := filled.2
  match guessLoop lib NO_LUT PDB_struct.nAtoms atomTags lookupGrid lookupGridLength RS_proj
      PDB_struct gasRadius (⌊PDB_struct.L * PDB_struct.L⌋).toNat 1 0 st.randIdx [] with
  | none => none
  | some e =>
    let p_hit : K := (e.hitCount : K) / (e.guessIndex : K)
    let areaEstimate := PDB_struct.L ^ 2
    let areaEstimate := areaEstimate * p_hit
    let stdDevEstimate := PDB_struct.L ^ 2
    let stdDevEstimate := stdDevEstimate * lib.sqrt (p_hit * (1 - p_hit) / (e.guessIndex : K))
    some { angleCount := st.angleCount + 1
           meanArea := st.meanArea + areaEstimate
           meanError := st.meanError + stdDevEstimate
           randIdx := e.randIdx
           RStheta := st.RStheta
           RS_proj := RS_proj
           atomTags := atomTags
           lookupGrid := lookupGrid
           log := st.log ++ [{ theta := theta, phi := phi, guessIndex := e.guessIndex,
                               hitCount := e.hitCount, randCalls := e.randIdx - st.randIdx,
                               broke := e.broke, checks := e.checks, p_hit := p_hit,
                               areaEstimate := areaEstimate,
                               stdDevEstimate := stdDevEstimate }] }

/-- The values `1, 2, ..., n` taken by a loop counter `for( k = 1; k <= n; k++ )`. -/
def steps (n : ℤ) : List ℤ := (List.range n.toNat).map (fun (k : ℕ) => (k : ℤ) + 1)

/-- The body of the loop over `thetaStep`, lines 199-349. -/
def thetaBody (lib : CLib K) (NO_LUT : Bool) (PDB_struct : PDB_STRUCT_T K) (gasRadius : K)
    (lookupGridLength : ℤ) (nThetaSteps nPhiStepsMax : ℤ) (st : CrossState K)
    (thetaStep : ℤ) : Option (CrossState K) :=
  let theta : K := PI * (thetaStep : K) / (nThetaSteps : K)
  let Rx11 := lib.cos theta
  let Rx12 := -1 * lib.sin theta
  let Rx21 := lib.sin theta
  let Rx22 := lib.cos theta
  let RStheta := rotateAboutX Rx11 Rx12 Rx21 Rx22 PDB_struct st.RStheta
  let nPhiSteps := toInt ((nPhiStepsMax : K) * lib.sin theta)
  let nPhiSteps := if nPhiSteps = 0 then 1 else nPhiSteps
  (steps nPhiSteps).foldlM
    (phiBody lib NO_LUT PDB_struct gasRadius lookupGridLength theta nPhiSteps)
    { st with RStheta := RStheta }

/-- The initialisation loop of lines 175-179 on the freshly allocated `atomTags`. -/
def initAtomTags (nAtoms : ℕ) (atomTags : ℕ → ATOM_T K) : ℕ → ATOM_T K :=
  (List.range nAtoms).foldl (fun atomTags atomIndex =>
    Function.update atomTags atomIndex
      { next := none, gridX := (atomTags atomIndex).gridX, gridY := (atomTags atomIndex).gridY,
        id := atomIndex }) atomTags

/-- The function `crossArea` of lines 145-359.  `loaded` is the structure returned by
`getPdbStructure`, `heap` holds the position in the `rand()` stream and the contents of the
freshly allocated buffers (its accumulators and log are overwritten).  `none` means that a
list walk of the collision test did not end. -/
def crossArea (lib : CLib K) (NO_LUT : Bool) (heap : CrossState K) (loaded : PDB_STRUCT_T K)
    (nThetaSteps nPhiStepsMax : ℤ) (gasRadius : K) : Option (CrossResult K) :=
  let PDB_struct : PDB_STRUCT_T K :=
    { loaded with L := loaded.L + 2 * (gasRadius + loaded.largestAtomicRadius) }
  let atomTags := initAtomTags PDB_struct.nAtoms heap.atomTags
  let lookupGridLength : ℤ :=
    1 + toInt (PDB_struct.L / (gasRadius + PDB_struct.largestAtomicRadius))
  let st0 : CrossState K :=
    { heap with angleCount := 0, meanArea := 0, meanError := 0, atomTags := atomTags, log := [] }
  match (steps nThetaSteps).foldlM
      (thetaBody lib NO_LUT PDB_struct gasRadius lookupGridLength nThetaSteps nPhiStepsMax)
      st0 with
  | none => none
  | some st =>
    let meanArea := st.meanArea / (st.angleCount : K)
    let meanError := st.meanError / (st.angleCount : K)
    some { PDB_struct := PDB_struct
           angleCount := st.angleCount
           meanArea := meanArea
           meanError := meanError
           totalESE := meanError / lib.sqrt ((st.angleCount : K) - 1)
           log := st.log }

/-- The nodes reached from the pointer `head` by following `next`, in order: `Chain atoms
head l` says that the walk visits exactly the nodes `l` and then reaches `NULL`. -/
inductive Chain (atoms : ℕ → ATOM_T K) : Option ℕ → List ℕ → Prop
  | nil : Chain atoms none []
  | cons (p : ℕ) (l : List ℕ) : Chain atoms (atoms p).next l → Chain atoms (some p) (p :: l)

/-- The index of the cell in which `fillLookupGrid` (lines 385-390) puts atom `a`. -/
def cellIndex (lookupGridLength : ℤ) (RS_proj : ℕ → K) (PDB_struct : PDB_STRUCT_T K)
    (gasRadius : K) (a : ℕ) : ℤ :=
  toInt ((RS_proj (3 * a) + PDB_struct.L * (1 / 2)) /
      (gasRadius + PDB_struct.largestAtomicRadius)) * lookupGridLength +
    toInt ((RS_proj (3 * a + 1) + PDB_struct.L * (1 / 2)) /
      (gasRadius + PDB_struct.largestAtomicRadius))

/-- The point `(x, y)` lies strictly within the clearance `gasRadius + radius` of the
projected centre of atom `a`. -/
def Collides (RS_proj : ℕ → K) (PDB_struct : PDB_STRUCT_T K) (gasRadius : K) (x y : K)
    (a : ℕ) : Prop :=
  (x - RS_proj (3 * a)) ^ 2 + (y - RS_proj (3 * a + 1)) ^ 2 <
    (gasRadius + PDB_struct.atomicRadii a) ^ 2

/-- The atoms with index below `k` that `fillLookupGrid` puts in cell `gi`, last inserted
first. -/
def cellAtoms (lookupGridLength : ℤ) (RS_proj : ℕ → K) (PDB_struct : PDB_STRUCT_T K)
    (gasRadius : K) (k : ℕ) (gi : ℤ) : List ℕ :=
  ((List.range k).filter
    (fun a => decide (cellIndex lookupGridLength RS_proj PDB_struct gasRadius a = gi))).reverse

/-- The result of a collision test that returned: 0 or 1. -/
def IsBit (r : Option ℤ) : Prop := r = some 0 ∨ r = some 1

/-- Example data: one atom of radius 1 in a box of side 4 (after enlargement). -/
def oneAtom : PDB_STRUCT_T ℚ :=
  { nAtoms := 1, crds := fun _ => 0, atomicRadii := fun _ => 1, L := 4,
    largestAtomicRadius := 1 }

/-- Example data: projected coordinates with every atom at `(1, 2)`. -/
def projAt12 : ℕ → ℚ := fun k => if k % 3 = 0 then 1 else if k % 3 = 1 then 2 else 0

/-- Example data: atom nodes as `crossArea` initialises them (lines 175-179). -/
def freshTags : ℕ → ATOM_T ℚ := fun k => { next := none, gridX := 0, gridY := 0, id := k }

/-- Example data: a grid whose heads are all `NULL`. -/
def nullGrid : ℤ → Option ℕ := fun _ => none

/-- The record `o` is what lines 251-339 compute from one run of the guess loop, started at
`guessIndex = 1`, `hitCount = 0` on some grid, in the structure `P` with grid length `len`:
`p_hit` is `hitCount / guessIndex` with the values the loop left, the area and error
estimates are `L²` times `p_hit` and times the binomial deviation. -/
def IsOrientationRun (lib : CLib K) (NO_LUT : Bool) (P : PDB_STRUCT_T K) (g : K) (len : ℤ)
    (o : Orientation K) : Prop :=
  ∃ (atoms : ℕ → ATOM_T K) (grid : ℤ → Option ℕ) (RS_proj : ℕ → K) (ri : ℕ)
    (e : GuessExit K),
    guessLoop lib NO_LUT P.nAtoms atoms grid len RS_proj P g (⌊P.L * P.L⌋).toNat 1 0 ri []
      = some e ∧
    o.guessIndex = e.guessIndex ∧ o.hitCount = e.hitCount ∧ o.randCalls = e.randIdx - ri ∧
    o.broke = e.broke ∧ o.checks = e.checks ∧
    o.p_hit = (e.hitCount : K) / (e.guessIndex : K) ∧
    o.areaEstimate = P.L ^ 2 * o.p_hit ∧
    o.stdDevEstimate = P.L ^ 2 * lib.sqrt (o.p_hit * (1 - o.p_hit) / (e.guessIndex : K))

/-- The value of `nPhiSteps` that lines 218-222 compute for `thetaStep`. -/
def nPhiStepsAt (lib : CLib K) (nThetaSteps nPhiStepsMax thetaStep : ℤ) : ℤ :=
  if toInt ((nPhiStepsMax : K) * lib.sin (PI * (thetaStep : K) / (nThetaSteps : K))) = 0 then 1
  else toInt ((nPhiStepsMax : K) * lib.sin (PI * (thetaStep : K) / (nThetaSteps : K)))

/-- The accumulators agree with the log: `angleCount` counts the orientations completed,
`meanArea` and `meanError` are the sums of their estimates, and every record comes from a
run of the guess loop. -/
def LogInv (lib : CLib K) (NO_LUT : Bool) (P : PDB_STRUCT_T K) (g : K) (len : ℤ)
    (st : CrossState K) : Prop :=
  st.angleCount = (st.log.length : ℤ) ∧
  st.meanArea = (st.log.map (fun o => o.areaEstimate)).sum ∧
  st.meanError = (st.log.map (fun o => o.stdDevEstimate)).sum ∧
  ∀ o, o ∈ st.log → IsOrientationRun lib NO_LUT P g len o

/-- Example library: Bhaskara's rational approximation of the sine on `[0, PI]`. -/
def bhaskara (u : ℚ) : ℚ := 16 * u * (PI - u) / (5 * PI * PI - 4 * u * (PI - u))

/-- Example library: a rational approximation of `sin`, exact at the multiples of `PI / 2`. -/
def approxSin (t : ℚ) : ℚ :=
  let u := t - 2 * PI * (⌊t / (2 * PI)⌋ : ℤ)
  if u ≤ PI then bhaskara u else -bhaskara (u - PI)

/-- Example library: a rational approximation of `cos`. -/
def approxCos (t : ℚ) : ℚ := approxSin (t + PI / 2)

/-- Example library: Newton iteration for the square root, rounded up to nine decimals at
every step. -/
def sqrtIter : ℕ → ℚ → ℚ → ℚ
  | 0, _, x => x
  | n + 1, v, x => sqrtIter n v ((⌈(x + v / x) / 2 * 1000000000⌉ : ℤ) / 1000000000)

/-- Example library: a rational approximation of `sqrt`. -/
def approxSqrt (v : ℚ) : ℚ := if v ≤ 0 then 0 else sqrtIter 40 v ((v + 1) / 2)

/-- Example library over `ℚ` with the given `rand()` stream and `RAND_MAX = 32767`. -/
def exampleLib (rand : ℕ → ℤ) : CLib ℚ :=
  { sin := approxSin, cos := approxCos, sqrt := approxSqrt, rand := rand, RAND_MAX := 32767 }

/-- Example data: freshly allocated buffers, all zero. -/
def exampleHeap : CrossState K :=
  { angleCount := 0, meanArea := 0, meanError := 0, randIdx := 0, RStheta := fun _ => 0,
    RS_proj := fun _ => 0, atomTags := fun _ => { next := none, gridX := 0, gridY := 0, id := 0 },
    lookupGrid := fun _ => none, log := [] }

/-- Example data: the structure loaded for one atom of radius 1 at the origin, box side
`L`. -/
def loadedOneAtom (L : K) : PDB_STRUCT_T K :=
  { nAtoms := 1, crds := fun _ => 0, atomicRadii := fun _ => 1, L := L,
    largestAtomicRadius := 1 }

/-- The value of `hitCount` after `m` guesses when the `k`-th guess (counted from 0) adds
`hit k`. -/
def hitCountAfter (hit : ℕ → ℤ) (m : ℕ) : ℤ := ((List.range m).map hit).sum

/-- The pattern `headAtom = lookupGrid[ gridIndex ]; if( testGridSquare( headAtom, ... ) == 1 )
return( 1 );` followed by the rest of the function, with the list of the grid indices read:
the read of `gridIndex` always happens, those of `rest` only after a miss. -/
def orElseT (gridIndex : ℤ) (r : Option ℤ) (rest : List ℤ × Option ℤ) : List ℤ × Option ℤ :=
  match r with
  | none => ([gridIndex], none)
  | some v => if v = 1 then ([gridIndex], some 1) else (gridIndex :: rest.1, rest.2)

/-- The function `lookupGridTestCollision` of lines 418-526 once more, returning with its
result the list of the indices `gridIndex` at which it reads `lookupGrid[ gridIndex ]`, in
the order of the reads. -/
def lookupGridReads (fuel : ℕ) (atoms : ℕ → ATOM_T K) (x y : K)
    (lookupGrid : ℤ → Option ℕ) (lookupGridLength : ℤ) (PDB_struct : PDB_STRUCT_T K)
    (gasRadius : K) : List ℤ × Option ℤ :=
  let l := PDB_struct.L * (1 / 2)
  let i := toInt ((l + x) / (gasRadius + PDB_struct.largestAtomicRadius))
  let j := toInt ((l + y) / (gasRadius + PDB_struct.largestAtomicRadius))
  let cell := fun (gridIndex : ℤ) (rest : List ℤ × Option ℤ) =>
    orElseT gridIndex
      (testGridSquare atoms fuel (lookupGrid gridIndex) PDB_struct x y gasRadius) rest
  let rowAbove := fun (rest : List ℤ × Option ℤ) =>
    if i > 0 then
      (if j > 0 then cell ((i - 1) * lookupGridLength + j - 1) else id) <|
      cell ((i - 1) * lookupGridLength + j) <|
      (if j < lookupGridLength - 1 then cell ((i - 1) * lookupGridLength + j + 1)
       else id) <| rest
    else rest
  let rowBelow := fun (rest : List ℤ × Option ℤ) =>
    if i < lookupGridLength - 1 then
      (if j > 0 then cell ((i + 1) * lookupGridLength + j - 1) else id) <|
      cell ((i + 1) * lookupGridLength + j) <|
      (if j < lookupGridLength - 1 then cell ((i + 1) * lookupGridLength + j + 1)
       else id) <| rest
    else rest
  cell (i * lookupGridLength + j) <|
  rowAbove <|
  (if j > 0 then cell (i * lookupGridLength + j - 1) else id) <|
  (if j < lookupGridLength - 1 then cell (i * lookupGridLength + j + 1) else id) <|
  rowBelow <|
  ([], some 0)

/-- The cells `lookupGridTestCollision` inspects around cell `(i, j)` when no test hits, in
the order of the source: the centre, the row above, left and right, the row below, each
under its guard on `i` and `j`. -/
def neighbourCells (i j lookupGridLength : ℤ) : List ℤ :=
  (i * lookupGridLength + j) ::
    ((if i > 0 then
        (if j > 0 then [(i - 1) * lookupGridLength + j - 1] else []) ++
        [(i - 1) * lookupGridLength + j] ++
        (if j < lookupGridLength - 1 then [(i - 1) * lookupGridLength + j + 1] else [])
      else []) ++
     (if j > 0 then [i * lookupGridLength + j - 1] else []) ++
     (if j < lookupGridLength - 1 then [i * lookupGridLength + j + 1] else []) ++
     (if i < lookupGridLength - 1 then
        (if j > 0 then [(i + 1) * lookupGridLength + j - 1] else []) ++
        [(i + 1) * lookupGridLength + j] ++
        (if j < lookupGridLength - 1 then [(i + 1) * lookupGridLength + j + 1] else [])
      else []))

/-- Testing the cells of a list in turn, stopping at the first hit, with the list of the
cells read. -/
def scanCells (cell : ℤ → Option ℤ) : List ℤ → List ℤ × Option ℤ
  | [] => ([], some 0)
  | gridIndex :: rest => orElseT gridIndex (cell gridIndex) (scanCells cell rest)

end Embedding

section GridLemmas

variable {K : Type} [LinearOrderedField K] [FloorRing K]

theorem toInt_of_nonneg {v : K} (h : 0 ≤ v) : toInt v = ⌊v⌋ := by
  simp [toInt, h]

theorem Chain.update_of_not_mem {atoms : ℕ → ATOM_T K} {h : Option ℕ} {l : List ℕ}
    (hc : Chain atoms h l) (k : ℕ) (v : ATOM_T K) (hk : k ∉ l) :
    Chain (Function.update atoms k v) h l := by
  induction hc with
  | nil => exact Chain.nil
  | cons p l _ ih =>
    have hpk : p ≠ k := fun e => hk (by simp [e])
    have hkl : k ∉ l := fun e => hk (by simp [e])
    refine Chain.cons p l ?_
    rw [Function.update_noteq hpk]
    exact ih hkl

theorem fillLookupGridStep_fst (len : ℤ) (RS_proj : ℕ → K) (pdb : PDB_STRUCT_T K) (g : K)
    (st : (ℤ → Option ℕ) × (ℕ → ATOM_T K)) (k : ℕ) :
    (fillLookupGridStep len RS_proj pdb g st k).1 =
      Function.update st.1 (cellIndex len RS_proj pdb g k) (some k) := by
  unfold fillLookupGridStep cellIndex
  dsimp only
  split <;> rfl

theorem fillLookupGridStep_snd (len : ℤ) (RS_proj : ℕ → K) (pdb : PDB_STRUCT_T K) (g : K)
    (st : (ℤ → Option ℕ) × (ℕ → ATOM_T K)) (k : ℕ) :
    (fillLookupGridStep len RS_proj pdb g st k).2 =
      Function.update st.2 k
        { next := st.1 (cellIndex len RS_proj pdb g k), gridX := RS_proj (3 * k),
          gridY := RS_proj (3 * k + 1), id := (st.2 k).id } := by
  unfold fillLookupGridStep cellIndex
  dsimp only
  split
  · next h => rw [h]
  · next head h => rw [h]

theorem mem_cellAtoms (len : ℤ) (RS_proj : ℕ → K) (pdb : PDB_STRUCT_T K) (g : K) (k : ℕ)
    (gi : ℤ) (p : ℕ) :
    p ∈ cellAtoms len RS_proj pdb g k gi ↔ p < k ∧ cellIndex len RS_proj pdb g p = gi := by
  simp [cellAtoms]

theorem cellAtoms_succ (len : ℤ) (RS_proj : ℕ → K) (pdb : PDB_STRUCT_T K) (g : K) (k : ℕ)
    (gi : ℤ) :
    cellAtoms len RS_proj pdb g (k + 1) gi =
      if cellIndex len RS_proj pdb g k = gi then k :: cellAtoms len RS_proj pdb g k gi
      else cellAtoms len RS_proj pdb g k gi := by
  unfold cellAtoms
  rw [List.range_succ, List.filter_append, List.reverse_append]
  by_cases h : cellIndex len RS_proj pdb g k = gi <;> simp [h]

/-- State of the loop of `fillLookupGrid` after the first `k` atoms. -/
theorem fill_invariant (len : ℤ) (RS_proj : ℕ → K) (pdb : PDB_STRUCT_T K) (g : K)
    (grid0 : ℤ → Option ℕ) (atoms0 : ℕ → ATOM_T K)
    (hcell : ∀ a, a < pdb.nAtoms →
      0 ≤ cellIndex len RS_proj pdb g a ∧ cellIndex len RS_proj pdb g a < len * len)
    (k : ℕ) (hk : k ≤ pdb.nAtoms) :
    (∀ gi, 0 ≤ gi → gi < len * len →
      Chain ((List.range k).foldl (fillLookupGridStep len RS_proj pdb g)
          (memsetGrid grid0 len, atoms0)).2
        (((List.range k).foldl (fillLookupGridStep len RS_proj pdb g)
          (memsetGrid grid0 len, atoms0)).1 gi)
        (cellAtoms len RS_proj pdb g k gi)) ∧
    (∀ gi, ¬ (0 ≤ gi ∧ gi < len * len) →
      ((List.range k).foldl (fillLookupGridStep len RS_proj pdb g)
          (memsetGrid grid0 len, atoms0)).1 gi = grid0 gi) ∧
    (∀ a, a < k →
      (((List.range k).foldl (fillLookupGridStep len RS_proj pdb g)
          (memsetGrid grid0 len, atoms0)).2 a).gridX = RS_proj (3 * a) ∧
      (((List.range k).foldl (fillLookupGridStep len RS_proj pdb g)
          (memsetGrid grid0 len, atoms0)).2 a).gridY = RS_proj (3 * a + 1) ∧
      (((List.range k).foldl (fillLookupGridStep len RS_proj pdb g)
          (memsetGrid grid0 len, atoms0)).2 a).id = (atoms0 a).id) ∧
    (∀ a, k ≤ a →
      ((List.range k).foldl (fillLookupGridStep len RS_proj pdb g)
          (memsetGrid grid0 len, atoms0)).2 a = atoms0 a) := by
  induction k with
  | zero =>
    refine ⟨?_, ?_, ?_, ?_⟩
    · intro gi h0 h1
      simp [memsetGrid, h0, h1, cellAtoms]
      exact Chain.nil
    · intro gi h
      simp only [List.range_zero, List.foldl_nil, memsetGrid]
      rw [if_neg h]
    · intro a ha
      omega
    · intro a _
      simp
  | succ k ih =>
    obtain ⟨ih1, ih2, ih3, ih4⟩ := ih (by omega)
    have hck := hcell k (by omega)
    rw [List.range_succ, List.foldl_append]
    simp only [List.foldl_cons, List.foldl_nil]
    generalize hst : (List.range k).foldl (fillLookupGridStep len RS_proj pdb g)
          (memsetGrid grid0 len, atoms0) = st at ih1 ih2 ih3 ih4
    rw [fillLookupGridStep_fst, fillLookupGridStep_snd]
    refine ⟨?_, ?_, ?_, ?_⟩
    · intro gi h0 h1
      rw [cellAtoms_succ]
      by_cases hgi : cellIndex len RS_proj pdb g k = gi
      · rw [if_pos hgi, hgi, Function.update_same]
        refine Chain.cons k _ ?_
        rw [Function.update_same]
        refine (ih1 gi h0 h1).update_of_not_mem k _ ?_
        rw [mem_cellAtoms]
        omega
      · rw [if_neg hgi, Function.update_noteq (Ne.symm hgi)]
        refine (ih1 gi h0 h1).update_of_not_mem k _ ?_
        rw [mem_cellAtoms]
        omega
    · intro gi h
      have hne : gi ≠ cellIndex len RS_proj pdb g k := by
        intro e
        exact h (e ▸ hck)
      rw [Function.update_noteq hne]
      exact ih2 gi h
    · intro a ha
      by_cases hak : a = k
      · subst hak
        rw [Function.update_same]
        refine ⟨rfl, rfl, ?_⟩
        simp only
        rw [ih4 a le_rfl]
      · rw [Function.update_noteq hak]
        exact ih3 a (by omega)
    · intro a ha
      have hak : a ≠ k := by omega
      rw [Function.update_noteq hak]
      exact ih4 a (by omega)

/-- A walk along a chain with enough fuel finds a colliding node if there is one. -/
theorem testGridSquare_chain (atoms : ℕ → ATOM_T K) (pdb : PDB_STRUCT_T K) (x y g : K)
    (h : Option ℕ) (l : List ℕ) (hc : Chain atoms h l) (fuel : ℕ) (hf : l.length ≤ fuel) :
    ((∃ p, p ∈ l ∧ (x - (atoms p).gridX) * (x - (atoms p).gridX) +
          (y - (atoms p).gridY) * (y - (atoms p).gridY) <
        (g + pdb.atomicRadii (atoms p).id) * (g + pdb.atomicRadii (atoms p).id)) →
      testGridSquare atoms fuel h pdb x y g = some 1) ∧
    ((¬ ∃ p, p ∈ l ∧ (x - (atoms p).gridX) * (x - (atoms p).gridX) +
          (y - (atoms p).gridY) * (y - (atoms p).gridY) <
        (g + pdb.atomicRadii (atoms p).id) * (g + pdb.atomicRadii (atoms p).id)) →
      testGridSquare atoms fuel h pdb x y g = some 0) := by
  induction hc generalizing fuel with
  | nil =>
    constructor
    · rintro ⟨p, hp, _⟩
      simp at hp
    · intro _
      cases fuel <;> rfl
  | cons p l _ ih =>
    cases fuel with
    | zero => simp at hf
    | succ fuel =>
      have hf2 : l.length ≤ fuel := by simpa using hf
      obtain ⟨ih1, ih2⟩ := ih fuel hf2
      simp only [testGridSquare]
      by_cases hp : (x - (atoms p).gridX) * (x - (atoms p).gridX) +
          (y - (atoms p).gridY) * (y - (atoms p).gridY) <
        (g + pdb.atomicRadii (atoms p).id) * (g + pdb.atomicRadii (atoms p).id)
      · rw [if_pos hp]
        constructor
        · intro _
          rfl
        · intro hn
          exact absurd ⟨p, by simp, hp⟩ hn
      · rw [if_neg hp]
        constructor
        · rintro ⟨q, hq, hhit⟩
          rcases List.mem_cons.mp hq with rfl | hq2
          · exact absurd hhit hp
          · exact ih1 ⟨q, hq2, hhit⟩
        · intro hn
          refine ih2 ?_
          rintro ⟨q, hq, hhit⟩
          exact hn ⟨q, List.mem_cons_of_mem _ hq, hhit⟩

theorem orElse_spec (r rest : Option ℤ) (hr : IsBit r) (hrest : IsBit rest) :
    IsBit (orElse r rest) ∧ (orElse r rest = some 1 ↔ (r = some 1 ∨ rest = some 1)) := by
  rcases hr with rfl | rfl <;> rcases hrest with rfl | rfl <;> simp [orElse, IsBit]

theorem guard_spec (c : Prop) [Decidable c] (r rest : Option ℤ) (hr : c → IsBit r)
    (hrest : IsBit rest) :
    IsBit ((if c then orElse r else id) rest) ∧
      ((if c then orElse r else id) rest = some 1 ↔ ((c ∧ r = some 1) ∨ rest = some 1)) := by
  by_cases hc : c
  · rw [if_pos hc]
    obtain ⟨b, e⟩ := orElse_spec r rest (hr hc) hrest
    refine ⟨b, ?_⟩
    rw [e]
    simp only [hc, true_and]
  · rw [if_neg hc]
    refine ⟨hrest, ?_⟩
    simp only [id, hc, false_and, false_or]

theorem row_spec (ci cl cr : Prop) [Decidable ci] [Decidable cl] [Decidable cr]
    (rl rm rr rest : Option ℤ) (hl : ci → cl → IsBit rl) (hm : ci → IsBit rm)
    (hr : ci → cr → IsBit rr) (hrest : IsBit rest) :
    IsBit (if ci then
        (if cl then orElse rl else id) (orElse rm ((if cr then orElse rr else id) rest))
      else rest) ∧
    ((if ci then
        (if cl then orElse rl else id) (orElse rm ((if cr then orElse rr else id) rest))
      else rest) = some 1 ↔
      ((ci ∧ ((cl ∧ rl = some 1) ∨ rm = some 1 ∨ (cr ∧ rr = some 1))) ∨ rest = some 1)) := by
  by_cases hci : ci
  · rw [if_pos hci]
    obtain ⟨b1, e1⟩ := guard_spec cr rr rest (hr hci) hrest
    obtain ⟨b2, e2⟩ := orElse_spec rm _ (hm hci) b1
    obtain ⟨b3, e3⟩ := guard_spec cl rl _ (hl hci) b2
    refine ⟨b3, ?_⟩
    rw [e3, e2, e1]
    simp only [hci, true_and, or_assoc]
  · rw [if_neg hci]
    refine ⟨hrest, ?_⟩
    simp only [hci, false_and, false_or]

theorem flat_index_range {len a b : ℤ} (ha0 : 0 ≤ a) (ha1 : a < len) (hb0 : 0 ≤ b)
    (hb1 : b < len) : 0 ≤ a * len + b ∧ a * len + b < len * len := by
  constructor
  · nlinarith
  · nlinarith

/-- What `lookupGridTestCollision` returns when every cell it may inspect holds a list that
ends: 1 exactly if one of the inspected cells reports a hit. -/
theorem lookupGridTestCollision_spec (fuel : ℕ) (atoms : ℕ → ATOM_T K) (x y : K)
    (grid : ℤ → Option ℕ) (len : ℤ) (pdb : PDB_STRUCT_T K) (g : K) (i j : ℤ)
    (hi : i = toInt ((pdb.L * (1 / 2) + x) / (g + pdb.largestAtomicRadius)))
    (hj : j = toInt ((pdb.L * (1 / 2) + y) / (g + pdb.largestAtomicRadius)))
    (hi0 : 0 ≤ i) (hi1 : i < len) (hj0 : 0 ≤ j) (hj1 : j < len)
    (hcells : ∀ gi, 0 ≤ gi → gi < len * len →
      IsBit (testGridSquare atoms fuel (grid gi) pdb x y g)) :
    IsBit (lookupGridTestCollision fuel atoms x y grid len pdb g) ∧
    (lookupGridTestCollision fuel atoms x y grid len pdb g = some 1 ↔
      ∃ a b, (a = i - 1 ∨ a = i ∨ a = i + 1) ∧ (b = j - 1 ∨ b = j ∨ b = j + 1) ∧
        0 ≤ a ∧ a < len ∧ 0 ≤ b ∧ b < len ∧
        testGridSquare atoms fuel (grid (a * len + b)) pdb x y g = some 1) := by
  have cellBit : ∀ a b, 0 ≤ a → a < len → 0 ≤ b → b < len →
      IsBit (testGridSquare atoms fuel (grid (a * len + b)) pdb x y g) := by
    intro a b ha0 ha1 hb0 hb1
    obtain ⟨h0, h1⟩ := flat_index_range ha0 ha1 hb0 hb1
    exact hcells _ h0 h1
  unfold lookupGridTestCollision
  simp only [← hi, ← hj]
  have hzero : IsBit (some (0 : ℤ)) := Or.inl rfl
  have cA := fun (_ : i > 0) (_ : j > 0) =>
    cellBit (i - 1) (j - 1) (by omega) (by omega) (by omega) (by omega)
  have cB := fun (_ : i > 0) => cellBit (i - 1) j (by omega) (by omega) (by omega) (by omega)
  have cC := fun (_ : i > 0) (_ : j < len - 1) =>
    cellBit (i - 1) (j + 1) (by omega) (by omega) (by omega) (by omega)
  have cD := fun (_ : j > 0) => cellBit i (j - 1) (by omega) (by omega) (by omega) (by omega)
  have cE := fun (_ : j < len - 1) =>
    cellBit i (j + 1) (by omega) (by omega) (by omega) (by omega)
  have cF := fun (_ : i < len - 1) (_ : j > 0) =>
    cellBit (i + 1) (j - 1) (by omega) (by omega) (by omega) (by omega)
  have cG := fun (_ : i < len - 1) =>
    cellBit (i + 1) j (by omega) (by omega) (by omega) (by omega)
  have cH := fun (_ : i < len - 1) (_ : j < len - 1) =>
    cellBit (i + 1) (j + 1) (by omega) (by omega) (by omega) (by omega)
  have c0 := cellBit i j hi0 hi1 hj0 hj1
  simp only [← add_sub_assoc, ← add_assoc] at cA cC cD cE cF cH
  obtain ⟨b1, e1⟩ := row_spec (i < len - 1) (j > 0) (j < len - 1) _ _ _ (some 0) cF cG cH hzero
  obtain ⟨b2, e2⟩ := guard_spec (j < len - 1) _ _ cE b1
  obtain ⟨b3, e3⟩ := guard_spec (j > 0) _ _ cD b2
  obtain ⟨b4, e4⟩ := row_spec (i > 0) (j > 0) (j < len - 1) _ _ _ _ cA cB cC b3
  obtain ⟨b5, e5⟩ := orElse_spec _ _ c0 b4
  refine ⟨b5, ?_⟩
  rw [e5, e4, e3, e2, e1]
  constructor
  · intro h
    rcases h with h | ⟨hg, (⟨hg2, h⟩ | h | ⟨hg2, h⟩)⟩ | ⟨hg, h⟩ | ⟨hg, h⟩ |
      ⟨hg, (⟨hg2, h⟩ | h | ⟨hg2, h⟩)⟩ | h
    · exact ⟨i, j, by omega, by omega, by omega, by omega, by omega, by omega, h⟩
    · rw [add_sub_assoc] at h
      exact ⟨i - 1, j - 1, by omega, by omega, by omega, by omega, by omega, by omega, h⟩
    · exact ⟨i - 1, j, by omega, by omega, by omega, by omega, by omega, by omega, h⟩
    · rw [add_assoc] at h
      exact ⟨i - 1, j + 1, by omega, by omega, by omega, by omega, by omega, by omega, h⟩
    · rw [add_sub_assoc] at h
      exact ⟨i, j - 1, by omega, by omega, by omega, by omega, by omega, by omega, h⟩
    · rw [add_assoc] at h
      exact ⟨i, j + 1, by omega, by omega, by omega, by omega, by omega, by omega, h⟩
    · rw [add_sub_assoc] at h
      exact ⟨i + 1, j - 1, by omega, by omega, by omega, by omega, by omega, by omega, h⟩
    · exact ⟨i + 1, j, by omega, by omega, by omega, by omega, by omega, by omega, h⟩
    · rw [add_assoc] at h
      exact ⟨i + 1, j + 1, by omega, by omega, by omega, by omega, by omega, by omega, h⟩
    · simp at h
  · rintro ⟨a, b, ha, hb, ha0, ha1, hb0, hb1, hhit⟩
    rcases ha with rfl | rfl | rfl <;> rcases hb with rfl | rfl | rfl
    · rw [← add_sub_assoc] at hhit
      exact Or.inr (Or.inl ⟨by omega, Or.inl ⟨by omega, hhit⟩⟩)
    · exact Or.inr (Or.inl ⟨by omega, Or.inr (Or.inl hhit)⟩)
    · rw [← add_assoc] at hhit
      exact Or.inr (Or.inl ⟨by omega, Or.inr (Or.inr ⟨by omega, hhit⟩)⟩)
    · rw [← add_sub_assoc] at hhit
      exact Or.inr (Or.inr (Or.inl ⟨by omega, hhit⟩))
    · exact Or.inl hhit
    · rw [← add_assoc] at hhit
      exact Or.inr (Or.inr (Or.inr (Or.inl ⟨by omega, hhit⟩)))
    · rw [← add_sub_assoc] at hhit
      exact Or.inr (Or.inr (Or.inr (Or.inr (Or.inl ⟨by omega, Or.inl ⟨by omega, hhit⟩⟩))))
    · exact Or.inr (Or.inr (Or.inr (Or.inr (Or.inl ⟨by omega, Or.inr (Or.inl hhit)⟩))))
    · rw [← add_assoc] at hhit
      exact Or.inr (Or.inr (Or.inr (Or.inr (Or.inl ⟨by omega, Or.inr (Or.inr ⟨by omega, hhit⟩)⟩))))

theorem cell_coord_bounds {L c x : K} (hc : 0 < c) (hx0 : -(L / 2) ≤ x) (hx1 : x ≤ L / 2) :
    toInt ((x + L * (1 / 2)) / c) = ⌊(x + L * (1 / 2)) / c⌋ ∧
    0 ≤ ⌊(x + L * (1 / 2)) / c⌋ ∧ ⌊(x + L * (1 / 2)) / c⌋ < 1 + ⌊L / c⌋ := by
  have hnum : 0 ≤ x + L * (1 / 2) := by linarith
  have hu : 0 ≤ (x + L * (1 / 2)) / c := div_nonneg hnum hc.le
  refine ⟨toInt_of_nonneg hu, Int.floor_nonneg.mpr hu, ?_⟩
  have hle : (x + L * (1 / 2)) / c ≤ L / c := by
    apply div_le_div_of_nonneg_right _ hc.le
    linarith
  have := Int.floor_le_floor hle
  omega

theorem floor_near {c l x xa : K} (hc : 0 < c) (h1 : x - xa < c) (h2 : xa - x < c) :
    ⌊(x + l) / c⌋ - 1 ≤ ⌊(xa + l) / c⌋ ∧ ⌊(xa + l) / c⌋ ≤ ⌊(x + l) / c⌋ + 1 := by
  have hd1 : (x + l) / c - (xa + l) / c < 1 := by
    rw [← sub_div, div_lt_one hc]
    linarith
  have hd2 : (xa + l) / c - (x + l) / c < 1 := by
    rw [← sub_div, div_lt_one hc]
    linarith
  have a1 := Int.floor_le ((x + l) / c)
  have a2 := Int.lt_floor_add_one ((x + l) / c)
  have b1 := Int.floor_le ((xa + l) / c)
  have b2 := Int.lt_floor_add_one ((xa + l) / c)
  constructor
  · have : ((⌊(x + l) / c⌋ : ℤ) : K) < ((⌊(xa + l) / c⌋ : ℤ) : K) + 2 := by linarith
    have : ⌊(x + l) / c⌋ < ⌊(xa + l) / c⌋ + 2 := by exact_mod_cast this
    omega
  · have : ((⌊(xa + l) / c⌋ : ℤ) : K) < ((⌊(x + l) / c⌋ : ℤ) : K) + 2 := by linarith
    have : ⌊(xa + l) / c⌋ < ⌊(x + l) / c⌋ + 2 := by exact_mod_cast this
    omega

theorem close_of_collides {c r dx dy : K} (hr0 : 0 ≤ r) (hrc : r ≤ c)
    (h : dx ^ 2 + dy ^ 2 < r ^ 2) : dx < c ∧ -dx < c ∧ dy < c ∧ -dy < c := by
  have hc2 : r ^ 2 ≤ c ^ 2 := by nlinarith
  have hdx : dx ^ 2 < c ^ 2 := by nlinarith [sq_nonneg dy]
  have hdy : dy ^ 2 < c ^ 2 := by nlinarith [sq_nonneg dx]
  have hc0 : 0 ≤ c := le_trans hr0 hrc
  have ex := abs_lt_of_sq_lt_sq hdx hc0
  have ey := abs_lt_of_sq_lt_sq hdy hc0
  rw [abs_lt] at ex ey
  exact ⟨ex.2, by linarith [ex.1], ey.2, by linarith [ey.1]⟩

theorem cellAtoms_length_le (len : ℤ) (RS_proj : ℕ → K) (pdb : PDB_STRUCT_T K) (g : K) (k : ℕ)
    (gi : ℤ) : (cellAtoms len RS_proj pdb g k gi).length ≤ k := by
  unfold cellAtoms
  rw [List.length_reverse]
  calc _ ≤ (List.range k).length := List.length_filter_le _ _
    _ = k := List.length_range k

/-- The grid query after a rebuild: it returns, with 0 or 1, and 1 exactly when some atom
is strictly closer to the query point than its clearance. -/
theorem fill_then_lookup (pdb : PDB_STRUCT_T K) (gasRadius : K) (RS_proj : ℕ → K)
    (lookupGrid : ℤ → Option ℕ) (atoms : ℕ → ATOM_T K) (lookupGridLength : ℤ) (fuel : ℕ)
    (x y : K)
    (hc : 0 < gasRadius + pdb.largestAtomicRadius) (hg : 0 ≤ gasRadius)
    (hr : ∀ a, a < pdb.nAtoms →
      0 ≤ pdb.atomicRadii a ∧ pdb.atomicRadii a ≤ pdb.largestAtomicRadius)
    (hlen : lookupGridLength = 1 + ⌊pdb.L / (gasRadius + pdb.largestAtomicRadius)⌋)
    (hatoms : ∀ a, a < pdb.nAtoms →
      (-(pdb.L / 2) ≤ RS_proj (3 * a) ∧ RS_proj (3 * a) ≤ pdb.L / 2) ∧
      (-(pdb.L / 2) ≤ RS_proj (3 * a + 1) ∧ RS_proj (3 * a + 1) ≤ pdb.L / 2))
    (hx : -(pdb.L / 2) ≤ x ∧ x ≤ pdb.L / 2) (hy : -(pdb.L / 2) ≤ y ∧ y ≤ pdb.L / 2)
    (hid : ∀ a, a < pdb.nAtoms → (atoms a).id = a)
    (hfuel : pdb.nAtoms ≤ fuel) :
    IsBit (lookupGridTestCollision fuel
      (fillLookupGrid lookupGrid lookupGridLength RS_proj atoms pdb gasRadius).2 x y
      (fillLookupGrid lookupGrid lookupGridLength RS_proj atoms pdb gasRadius).1
      lookupGridLength pdb gasRadius) ∧
    (lookupGridTestCollision fuel
      (fillLookupGrid lookupGrid lookupGridLength RS_proj atoms pdb gasRadius).2 x y
      (fillLookupGrid lookupGrid lookupGridLength RS_proj atoms pdb gasRadius).1
      lookupGridLength pdb gasRadius = some 1 ↔
      ∃ a, a < pdb.nAtoms ∧ Collides RS_proj pdb gasRadius x y a) := by
  -- cell coordinates of the atoms and of the query point
  have hca : ∀ a, a < pdb.nAtoms →
      cellIndex lookupGridLength RS_proj pdb gasRadius a =
        ⌊(RS_proj (3 * a) + pdb.L * (1 / 2)) / (gasRadius + pdb.largestAtomicRadius)⌋ *
          lookupGridLength +
        ⌊(RS_proj (3 * a + 1) + pdb.L * (1 / 2)) / (gasRadius + pdb.largestAtomicRadius)⌋ := by
    intro a ha
    obtain ⟨⟨hx0, hx1⟩, ⟨hy0, hy1⟩⟩ := hatoms a ha
    unfold cellIndex
    rw [(cell_coord_bounds hc hx0 hx1).1, (cell_coord_bounds hc hy0 hy1).1]
  have hcell : ∀ a, a < pdb.nAtoms →
      0 ≤ cellIndex lookupGridLength RS_proj pdb gasRadius a ∧
      cellIndex lookupGridLength RS_proj pdb gasRadius a < lookupGridLength * lookupGridLength := by
    intro a ha
    obtain ⟨⟨hx0, hx1⟩, ⟨hy0, hy1⟩⟩ := hatoms a ha
    rw [hca a ha]
    have bx := cell_coord_bounds hc hx0 hx1
    have by1 := cell_coord_bounds hc hy0 hy1
    exact flat_index_range bx.2.1 (by rw [hlen]; exact bx.2.2) by1.2.1
      (by rw [hlen]; exact by1.2.2)
  obtain ⟨inv1, _, inv3, _⟩ := fill_invariant lookupGridLength RS_proj pdb gasRadius lookupGrid
    atoms hcell pdb.nAtoms le_rfl
  have hfill : fillLookupGrid lookupGrid lookupGridLength RS_proj atoms pdb gasRadius =
      (List.range pdb.nAtoms).foldl
        (fillLookupGridStep lookupGridLength RS_proj pdb gasRadius)
        (memsetGrid lookupGrid lookupGridLength, atoms) := rfl
  rw [← hfill] at inv1 inv3
  generalize fillLookupGrid lookupGrid lookupGridLength RS_proj atoms pdb gasRadius = st
    at inv1 inv3 ⊢
  -- the walk of a cell and the atoms in it
  have hwalk : ∀ gi, 0 ≤ gi → gi < lookupGridLength * lookupGridLength →
      ((∃ p, p ∈ cellAtoms lookupGridLength RS_proj pdb gasRadius pdb.nAtoms gi ∧
          Collides RS_proj pdb gasRadius x y p) →
        testGridSquare st.2 fuel (st.1 gi) pdb x y gasRadius = some 1) ∧
      ((¬ ∃ p, p ∈ cellAtoms lookupGridLength RS_proj pdb gasRadius pdb.nAtoms gi ∧
          Collides RS_proj pdb gasRadius x y p) →
        testGridSquare st.2 fuel (st.1 gi) pdb x y gasRadius = some 0) := by
    intro gi h0 h1
    have hw := testGridSquare_chain st.2 pdb x y gasRadius (st.1 gi) _ (inv1 gi h0 h1) fuel
      (le_trans (cellAtoms_length_le _ _ _ _ _ _) hfuel)
    have hiff : ∀ p, p ∈ cellAtoms lookupGridLength RS_proj pdb gasRadius pdb.nAtoms gi →
        ((x - (st.2 p).gridX) * (x - (st.2 p).gridX) +
            (y - (st.2 p).gridY) * (y - (st.2 p).gridY) <
          (gasRadius + pdb.atomicRadii (st.2 p).id) *
            (gasRadius + pdb.atomicRadii (st.2 p).id) ↔
          Collides RS_proj pdb gasRadius x y p) := by
      intro p hp
      rw [mem_cellAtoms] at hp
      obtain ⟨e1, e2, e3⟩ := inv3 p hp.1
      rw [e1, e2, e3, hid p hp.1]
      unfold Collides
      simp only [sq]
    constructor
    · rintro ⟨p, hp, hcol⟩
      exact hw.1 ⟨p, hp, (hiff p hp).mpr hcol⟩
    · intro hn
      refine hw.2 ?_
      rintro ⟨p, hp, hcol⟩
      exact hn ⟨p, hp, (hiff p hp).mp hcol⟩
  have hbit : ∀ gi, 0 ≤ gi → gi < lookupGridLength * lookupGridLength →
      IsBit (testGridSquare st.2 fuel (st.1 gi) pdb x y gasRadius) := by
    intro gi h0 h1
    by_cases hex : ∃ p, p ∈ cellAtoms lookupGridLength RS_proj pdb gasRadius pdb.nAtoms gi ∧
          Collides RS_proj pdb gasRadius x y p
    · exact Or.inr ((hwalk gi h0 h1).1 hex)
    · exact Or.inl ((hwalk gi h0 h1).2 hex)
  have qx := cell_coord_bounds hc hx.1 hx.2
  have qy := cell_coord_bounds hc hy.1 hy.2
  have hqi : ⌊(x + pdb.L * (1 / 2)) / (gasRadius + pdb.largestAtomicRadius)⌋ =
      toInt ((pdb.L * (1 / 2) + x) / (gasRadius + pdb.largestAtomicRadius)) := by
    rw [← qx.1, add_comm]
  have hqj : ⌊(y + pdb.L * (1 / 2)) / (gasRadius + pdb.largestAtomicRadius)⌋ =
      toInt ((pdb.L * (1 / 2) + y) / (gasRadius + pdb.largestAtomicRadius)) := by
    rw [← qy.1, add_comm]
  obtain ⟨rbit, riff⟩ := lookupGridTestCollision_spec fuel st.2 x y st.1 lookupGridLength pdb
    gasRadius _ _ hqi hqj qx.2.1 (by rw [hlen]; exact qx.2.2) qy.2.1
    (by rw [hlen]; exact qy.2.2) hbit
  refine ⟨rbit, ?_⟩
  rw [riff]
  constructor
  · rintro ⟨a, b, _, _, ha0, ha1, hb0, hb1, hhit⟩
    obtain ⟨h0, h1⟩ := flat_index_range ha0 ha1 hb0 hb1
    by_contra hne
    have hnone : ¬ ∃ p, p ∈ cellAtoms lookupGridLength RS_proj pdb gasRadius pdb.nAtoms
          (a * lookupGridLength + b) ∧ Collides RS_proj pdb gasRadius x y p := by
      rintro ⟨p, hp, hcol⟩
      rw [mem_cellAtoms] at hp
      exact hne ⟨p, hp.1, hcol⟩
    rw [(hwalk _ h0 h1).2 hnone] at hhit
    simp at hhit
  · rintro ⟨p, hp, hcol⟩
    obtain ⟨⟨hx0, hx1⟩, ⟨hy0, hy1⟩⟩ := hatoms p hp
    have bx := cell_coord_bounds hc hx0 hx1
    have by1 := cell_coord_bounds hc hy0 hy1
    obtain ⟨r0, r1⟩ := hr p hp
    have hcl := close_of_collides (c := gasRadius + pdb.largestAtomicRadius)
      (add_nonneg hg r0) (by linarith) hcol
    have nx := floor_near (l := pdb.L * (1 / 2)) hc hcl.1 (by linarith [hcl.2.1])
    have ny := floor_near (l := pdb.L * (1 / 2)) hc hcl.2.2.1 (by linarith [hcl.2.2.2])
    refine ⟨_, _, ?_, ?_, bx.2.1, by rw [hlen]; exact bx.2.2, by1.2.1,
      by rw [hlen]; exact by1.2.2, ?_⟩
    · omega
    · omega
    · rw [← hca p hp]
      have hin := hcell p hp
      refine (hwalk _ hin.1 hin.2).1 ⟨p, ?_, hcol⟩
      rw [mem_cellAtoms]
      exact ⟨hp, rfl⟩

/-- The exhaustive scan adds 1 exactly when some atom still to visit is within its
clearance, boundary included, and 0 otherwise. -/
theorem exhaustiveScan_spec (RS_proj : ℕ → K) (pdb : PDB_STRUCT_T K) (g x y : K)
    (remaining start : ℕ) :
    (exhaustiveScan RS_proj pdb g x y remaining start = 1 ↔
      ∃ a, start ≤ a ∧ a < start + remaining ∧
        (x - RS_proj (3 * a)) ^ 2 + (y - RS_proj (3 * a + 1)) ^ 2 ≤
          (g + pdb.atomicRadii a) ^ 2) ∧
    (exhaustiveScan RS_proj pdb g x y remaining start = 0 ∨
      exhaustiveScan RS_proj pdb g x y remaining start = 1) := by
  induction remaining generalizing start with
  | zero =>
    simp only [exhaustiveScan]
    constructor
    · constructor
      · intro h
        simp at h
      · rintro ⟨a, h1, h2, _⟩
        omega
    · simp
  | succ n ih =>
    obtain ⟨ih1, ih2⟩ := ih (start + 1)
    simp only [exhaustiveScan]
    split
    · next hhit =>
      refine ⟨⟨fun _ => ⟨start, le_rfl, by omega, ?_⟩, fun _ => rfl⟩, Or.inr rfl⟩
      rw [add_comm g]
      simpa [sq] using hhit
    · next hmiss =>
      refine ⟨?_, ih2⟩
      rw [ih1]
      constructor
      · rintro ⟨a, h1, h2, h3⟩
        exact ⟨a, by omega, by omega, h3⟩
      · rintro ⟨a, h1, h2, h3⟩
        by_cases ha : a = start
        · subst ha
          exfalso
          apply hmiss
          rw [add_comm _ g]
          simpa [sq] using h3
        · exact ⟨a, by omega, by omega, h3⟩

/-- Away from exact tangency the grid test and the exhaustive scan agree: under the
conditions of the grid query, if no atom is at distance exactly `gasRadius + radius` from the
query point, both give 1 exactly when some atom is strictly within its clearance. -/
theorem grid_eq_exhaustive_off_tangency (pdb : PDB_STRUCT_T K) (gasRadius : K)
    (RS_proj : ℕ → K) (lookupGrid : ℤ → Option ℕ) (atoms : ℕ → ATOM_T K)
    (lookupGridLength : ℤ) (fuel : ℕ) (x y : K)
    (hc : 0 < gasRadius + pdb.largestAtomicRadius) (hg : 0 ≤ gasRadius)
    (hr : ∀ a, a < pdb.nAtoms →
      0 ≤ pdb.atomicRadii a ∧ pdb.atomicRadii a ≤ pdb.largestAtomicRadius)
    (hlen : lookupGridLength = 1 + ⌊pdb.L / (gasRadius + pdb.largestAtomicRadius)⌋)
    (hatoms : ∀ a, a < pdb.nAtoms →
      (-(pdb.L / 2) ≤ RS_proj (3 * a) ∧ RS_proj (3 * a) ≤ pdb.L / 2) ∧
      (-(pdb.L / 2) ≤ RS_proj (3 * a + 1) ∧ RS_proj (3 * a + 1) ≤ pdb.L / 2))
    (hx : -(pdb.L / 2) ≤ x ∧ x ≤ pdb.L / 2) (hy : -(pdb.L / 2) ≤ y ∧ y ≤ pdb.L / 2)
    (hid : ∀ a, a < pdb.nAtoms → (atoms a).id = a)
    (hfuel : pdb.nAtoms ≤ fuel)
    (htan : ∀ a, a < pdb.nAtoms →
      (x - RS_proj (3 * a)) ^ 2 + (y - RS_proj (3 * a + 1)) ^ 2 ≠
        (gasRadius + pdb.atomicRadii a) ^ 2) :
    lookupGridTestCollision fuel
      (fillLookupGrid lookupGrid lookupGridLength RS_proj atoms pdb gasRadius).2 x y
      (fillLookupGrid lookupGrid lookupGridLength RS_proj atoms pdb gasRadius).1
      lookupGridLength pdb gasRadius =
    some (exhaustiveScan RS_proj pdb gasRadius x y pdb.nAtoms 0) := by
  obtain ⟨hbit, hiff⟩ := fill_then_lookup pdb gasRadius RS_proj lookupGrid atoms
    lookupGridLength fuel x y hc hg hr hlen hatoms hx hy hid hfuel
  obtain ⟨e1, e2⟩ := exhaustiveScan_spec RS_proj pdb gasRadius x y pdb.nAtoms 0
  have hsame : (∃ a, a < pdb.nAtoms ∧ Collides RS_proj pdb gasRadius x y a) ↔
      exhaustiveScan RS_proj pdb gasRadius x y pdb.nAtoms 0 = 1 := by
    rw [e1]
    unfold Collides
    constructor
    · rintro ⟨a, ha, hlt⟩
      exact ⟨a, Nat.zero_le _, by omega, hlt.le⟩
    · rintro ⟨a, _, ha, hle⟩
      have ha2 : a < pdb.nAtoms := by omega
      exact ⟨a, ha2, lt_of_le_of_ne hle (htan a ha2)⟩
  rcases e2 with h0 | h1
  · rw [h0]
    rcases hbit with hb | hb
    · exact hb
    · exfalso
      have := hsame.mp (hiff.mp hb)
      rw [h0] at this
      simp at this
  · rw [h1]
    exact hiff.mpr (hsame.mpr h1)

/-- The cell of an atom of the box, in grid coordinates. -/
theorem cellIndex_in_box (pdb : PDB_STRUCT_T K) (gasRadius : K) (RS_proj : ℕ → K) (len : ℤ)
    (hc : 0 < gasRadius + pdb.largestAtomicRadius)
    (hlen : len = 1 + ⌊pdb.L / (gasRadius + pdb.largestAtomicRadius)⌋)
    (a : ℕ)
    (hx : -(pdb.L / 2) ≤ RS_proj (3 * a) ∧ RS_proj (3 * a) ≤ pdb.L / 2)
    (hy : -(pdb.L / 2) ≤ RS_proj (3 * a + 1) ∧ RS_proj (3 * a + 1) ≤ pdb.L / 2) :
    cellIndex len RS_proj pdb gasRadius a =
      ⌊(RS_proj (3 * a) + pdb.L / 2) / (gasRadius + pdb.largestAtomicRadius)⌋ * len +
        ⌊(RS_proj (3 * a + 1) + pdb.L / 2) / (gasRadius + pdb.largestAtomicRadius)⌋ ∧
    (0 ≤ ⌊(RS_proj (3 * a) + pdb.L / 2) / (gasRadius + pdb.largestAtomicRadius)⌋ ∧
      ⌊(RS_proj (3 * a) + pdb.L / 2) / (gasRadius + pdb.largestAtomicRadius)⌋ < len) ∧
    (0 ≤ ⌊(RS_proj (3 * a + 1) + pdb.L / 2) / (gasRadius + pdb.largestAtomicRadius)⌋ ∧
      ⌊(RS_proj (3 * a + 1) + pdb.L / 2) / (gasRadius + pdb.largestAtomicRadius)⌋ < len) ∧
    (0 ≤ cellIndex len RS_proj pdb gasRadius a ∧
      cellIndex len RS_proj pdb gasRadius a < len * len) := by
  have ehalf : pdb.L * (1 / 2) = pdb.L / 2 := by ring
  have bx := cell_coord_bounds hc hx.1 hx.2
  have by1 := cell_coord_bounds hc hy.1 hy.2
  rw [ehalf] at bx by1
  have hci : cellIndex len RS_proj pdb gasRadius a =
      ⌊(RS_proj (3 * a) + pdb.L / 2) / (gasRadius + pdb.largestAtomicRadius)⌋ * len +
        ⌊(RS_proj (3 * a + 1) + pdb.L / 2) / (gasRadius + pdb.largestAtomicRadius)⌋ := by
    unfold cellIndex
    rw [ehalf, bx.1, by1.1]
  have rx : ⌊(RS_proj (3 * a) + pdb.L / 2) / (gasRadius + pdb.largestAtomicRadius)⌋ < len := by
    rw [hlen]
    exact bx.2.2
  have ry : ⌊(RS_proj (3 * a + 1) + pdb.L / 2) / (gasRadius + pdb.largestAtomicRadius)⌋
      < len := by
    rw [hlen]
    exact by1.2.2
  refine ⟨hci, ⟨bx.2.1, rx⟩, ⟨by1.2.1, ry⟩, ?_⟩
  rw [hci]
  exact flat_index_range bx.2.1 rx by1.2.1 ry

theorem orElseT_snd (gi : ℤ) (r : Option ℤ) (rest : List ℤ × Option ℤ) :
    (orElseT gi r rest).2 = orElse r rest.2 := by
  cases r with
  | none => rfl
  | some v =>
    unfold orElseT orElse
    dsimp only
    split_ifs <;> rfl

/-- The traced function returns what `lookupGridTestCollision` returns. -/
theorem lookupGridReads_snd (fuel : ℕ) (atoms : ℕ → ATOM_T K) (x y : K)
    (grid : ℤ → Option ℕ) (len : ℤ) (pdb : PDB_STRUCT_T K) (g : K) :
    (lookupGridReads fuel atoms x y grid len pdb g).2 =
      lookupGridTestCollision fuel atoms x y grid len pdb g := by
  unfold lookupGridReads lookupGridTestCollision
  dsimp only
  split_ifs <;> simp only [orElseT_snd, id_eq]

/-- The traced function tests the cells of `neighbourCells` in turn. -/
theorem lookupGridReads_eq_scan (fuel : ℕ) (atoms : ℕ → ATOM_T K) (x y : K)
    (grid : ℤ → Option ℕ) (len : ℤ) (pdb : PDB_STRUCT_T K) (g : K) :
    lookupGridReads fuel atoms x y grid len pdb g =
      scanCells (fun gi => testGridSquare atoms fuel (grid gi) pdb x y g)
        (neighbourCells
          (toInt ((pdb.L * (1 / 2) + x) / (g + pdb.largestAtomicRadius)))
          (toInt ((pdb.L * (1 / 2) + y) / (g + pdb.largestAtomicRadius))) len) := by
  unfold lookupGridReads neighbourCells
  dsimp only
  split_ifs <;> simp only [scanCells, id_eq, List.nil_append, List.append_nil,
    List.cons_append, List.singleton_append]

theorem scanCells_prefix (cell : ℤ → Option ℤ) (l : List ℤ) :
    (scanCells cell l).1 <+: l := by
  induction l with
  | nil => exact List.prefix_refl _
  | cons gi rest ih =>
    unfold scanCells orElseT
    cases cell gi with
    | none => exact (List.prefix_cons_inj gi).mpr (List.nil_prefix)
    | some v =>
      dsimp only
      split_ifs
      · exact (List.prefix_cons_inj gi).mpr (List.nil_prefix)
      · exact (List.prefix_cons_inj gi).mpr ih

theorem scanCells_full (cell : ℤ → Option ℤ) (l : List ℤ)
    (h : (scanCells cell l).2 = some 0) : (scanCells cell l).1 = l := by
  induction l with
  | nil => rfl
  | cons gi rest ih =>
    unfold scanCells orElseT at h ⊢
    cases hc : cell gi with
    | none =>
      rw [hc] at h
      simp at h
    | some v =>
      rw [hc] at h
      dsimp only at h ⊢
      split_ifs at h ⊢ with hv
      · simp at h
      · rw [ih h]

theorem scanCells_head (cell : ℤ → Option ℤ) (gi : ℤ) (rest : List ℤ) :
    gi ∈ (scanCells cell (gi :: rest)).1 := by
  unfold scanCells orElseT
  cases cell gi with
  | none => simp
  | some v =>
    dsimp only
    split_ifs <;> simp

/-- The cells of `neighbourCells` are the cells `(i + di, j + dj)`, `di, dj ∈ {-1, 0, 1}`,
with both coordinates in `[0, len - 1]`. -/
theorem mem_neighbourCells {i j len : ℤ} (hi0 : 0 ≤ i) (hi1 : i < len) (hj0 : 0 ≤ j)
    (hj1 : j < len) (gi : ℤ) :
    gi ∈ neighbourCells i j len ↔
      ∃ di dj : ℤ, (di = -1 ∨ di = 0 ∨ di = 1) ∧ (dj = -1 ∨ dj = 0 ∨ dj = 1) ∧
        (0 ≤ i + di ∧ i + di ≤ len - 1) ∧ (0 ≤ j + dj ∧ j + dj ≤ len - 1) ∧
        gi = (i + di) * len + (j + dj) := by
  constructor
  · intro h
    unfold neighbourCells at h
    simp only [List.mem_cons, List.mem_append, List.mem_ite_nil_right, List.mem_singleton,
      List.not_mem_nil, or_false] at h
    rcases h with h | ((((⟨h1, (⟨h2, h⟩ | h) | ⟨h2, h⟩⟩) | ⟨h1, h⟩) | ⟨h1, h⟩) |
      ⟨h1, (⟨h2, h⟩ | h) | ⟨h2, h⟩⟩)
    · exact ⟨0, 0, by simp, by simp, by omega, by omega, by rw [h]; ring⟩
    · exact ⟨-1, -1, by simp, by simp, by omega, by omega, by rw [h]; ring⟩
    · exact ⟨-1, 0, by simp, by simp, by omega, by omega, by rw [h]; ring⟩
    · exact ⟨-1, 1, by simp, by simp, by omega, by omega, by rw [h]; ring⟩
    · exact ⟨0, -1, by simp, by simp, by omega, by omega, by rw [h]; ring⟩
    · exact ⟨0, 1, by simp, by simp, by omega, by omega, by rw [h]; ring⟩
    · exact ⟨1, -1, by simp, by simp, by omega, by omega, by rw [h]; ring⟩
    · exact ⟨1, 0, by simp, by simp, by omega, by omega, by rw [h]; ring⟩
    · exact ⟨1, 1, by simp, by simp, by omega, by omega, by rw [h]; ring⟩
  · rintro ⟨di, dj, hdi, hdj, ⟨a0, a1⟩, ⟨b0, b1⟩, rfl⟩
    unfold neighbourCells
    simp only [List.mem_cons, List.mem_append, List.mem_ite_nil_right, List.mem_singleton,
      List.not_mem_nil, or_false]
    rcases hdi with rfl | rfl | rfl <;> rcases hdj with rfl | rfl | rfl
    · right; left; left; left
      exact ⟨by omega, Or.inl (Or.inl ⟨by omega, by ring⟩)⟩
    · right; left; left; left
      exact ⟨by omega, Or.inl (Or.inr (by ring))⟩
    · right; left; left; left
      exact ⟨by omega, Or.inr ⟨by omega, by ring⟩⟩
    · right; left; left; right
      exact ⟨by omega, by ring⟩
    · left
      ring
    · right; left; right
      exact ⟨by omega, by ring⟩
    · right; right
      exact ⟨by omega, Or.inl (Or.inl ⟨by omega, by ring⟩)⟩
    · right; right
      exact ⟨by omega, Or.inl (Or.inr (by ring))⟩
    · right; right
      exact ⟨by omega, Or.inr ⟨by omega, by ring⟩⟩

end GridLemmas

section LoopLemmas

variable {K : Type} [LinearOrderedField K] [FloorRing K]

/-- What an exit state of the guess loop satisfies, relative to the state the loop was
entered with. -/
theorem guessLoop_spec (lib : CLib K) (NO_LUT : Bool) (chainFuel : ℕ) (atoms : ℕ → ATOM_T K)
    (lookupGrid : ℤ → Option ℕ) (len : ℤ) (RS_proj : ℕ → K) (pdb : PDB_STRUCT_T K) (g : K)
    (fuel : ℕ) (gi hc : ℤ) (ri : ℕ) (cs : List (ConvCheck K)) (e : GuessExit K)
    (h : guessLoop lib NO_LUT chainFuel atoms lookupGrid len RS_proj pdb g fuel gi hc ri cs
      = some e) :
    ∃ new, e.checks = cs ++ new ∧ gi ≤ e.guessIndex ∧
      (e.broke = true → e.guessIndex % 100 = 0 ∧ MIN_GUESSES ≤ e.guessIndex ∧
        stopNow (convCheck lib e.guessIndex e.hitCount) = true ∧
        (e.guessIndex : K) ≤ pdb.L * pdb.L ∧
        (e.randIdx : ℤ) = ri + 2 * (e.guessIndex - gi + 1)) ∧
      (e.broke = false → ¬ ((e.guessIndex : K) ≤ pdb.L * pdb.L) ∧
        (e.randIdx : ℤ) = ri + 2 * (e.guessIndex - gi)) ∧
      (∀ m, gi ≤ m → m < e.guessIndex → (m : K) ≤ pdb.L * pdb.L) ∧
      (∀ c, c ∈ new → c = convCheck lib c.guessIndex c.hitCount ∧ c.guessIndex % 100 = 0 ∧
        MIN_GUESSES ≤ c.guessIndex ∧ gi ≤ c.guessIndex ∧ c.guessIndex ≤ e.guessIndex ∧
        (stopNow c = true →
          e.broke = true ∧ c.guessIndex = e.guessIndex ∧ c.hitCount = e.hitCount) ∧
        (c.guessIndex = e.guessIndex → stopNow c = true)) ∧
      (∀ m, gi ≤ m → (m < e.guessIndex ∨ (e.broke = true ∧ m = e.guessIndex)) →
        m % 100 = 0 → MIN_GUESSES ≤ m → ∃ c, c ∈ new ∧ c.guessIndex = m) := by
  induction fuel generalizing gi hc ri cs with
  | zero =>
    simp only [guessLoop] at h
    split at h
    · simp at h
    · next hcond =>
      simp only [Option.some.injEq] at h
      subst h
      refine ⟨[], by simp, le_rfl, by simp, ?_, ?_, by simp, ?_⟩
      · intro _
        exact ⟨hcond, by simp⟩
      · intro m h1 h2
        simp only at h2
        omega
      · intro m h1 h2
        simp only at h2
        rcases h2 with h2 | ⟨h2, _⟩
        · omega
        · simp at h2
  | succ fuel ih =>
    simp only [guessLoop] at h
    split at h
    · next hcond =>
      split at h
      · simp at h
      · next hit hhit =>
        split at h
        · next hmod =>
          split at h
          · next hmin =>
            split at h
            · next hstop =>
              simp only [Option.some.injEq] at h
              subst h
              refine ⟨[convCheck lib gi (hc + hit)], rfl, le_rfl, ?_, by simp, ?_, ?_, ?_⟩
              · intro _
                refine ⟨hmod, hmin, hstop, hcond, ?_⟩
                simp only
                push_cast
                ring
              · intro m h1 h2
                simp only at h2
                omega
              · intro c hcmem
                simp only [List.mem_singleton] at hcmem
                subst hcmem
                refine ⟨rfl, hmod, hmin, le_rfl, le_rfl, ?_, fun _ => hstop⟩
                intro _
                exact ⟨rfl, rfl, rfl⟩
              · intro m h1 h2 _ _
                refine ⟨_, List.mem_singleton.mpr rfl, ?_⟩
                simp only at h2
                show gi = m
                omega
            · next hstop =>
              obtain ⟨new, e1, e2, e3, e4, e5, e6, e7⟩ := ih _ _ _ _ h
              refine ⟨convCheck lib gi (hc + hit) :: new, ?_, by omega, ?_, ?_, ?_, ?_, ?_⟩
              · rw [e1]
                simp
              · intro hb
                obtain ⟨a1, a2, a3, a4, a5⟩ := e3 hb
                refine ⟨a1, a2, a3, a4, ?_⟩
                rw [a5]
                push_cast
                ring
              · intro hb
                obtain ⟨a1, a2⟩ := e4 hb
                refine ⟨a1, ?_⟩
                rw [a2]
                push_cast
                ring
              · intro m h1 h2
                by_cases hm : m = gi
                · subst hm
                  exact hcond
                · exact e5 m (by omega) h2
              · intro c hcmem
                rcases List.mem_cons.mp hcmem with rfl | hcmem
                · refine ⟨rfl, hmod, hmin, le_rfl, by simp only [convCheck]; omega, ?_, ?_⟩
                  · intro hs
                    exact absurd hs hstop
                  · intro heq
                    simp only [convCheck] at heq
                    omega
                · obtain ⟨b1, b2, b3, b4, b5, b6, b7⟩ := e6 c hcmem
                  exact ⟨b1, b2, b3, by omega, b5, b6, b7⟩
              · intro m h1 h2 h3 h4
                by_cases hm : m = gi
                · exact ⟨_, List.mem_cons_self _ _, by simp only [convCheck]; omega⟩
                · obtain ⟨c, c1, c2⟩ := e7 m (by omega) h2 h3 h4
                  exact ⟨c, List.mem_cons_of_mem _ c1, c2⟩
          · next hmin =>
            obtain ⟨new, e1, e2, e3, e4, e5, e6, e7⟩ := ih _ _ _ _ h
            refine ⟨new, e1, by omega, ?_, ?_, ?_, ?_, ?_⟩
            · intro hb
              obtain ⟨a1, a2, a3, a4, a5⟩ := e3 hb
              refine ⟨a1, a2, a3, a4, ?_⟩
              rw [a5]
              push_cast
              ring
            · intro hb
              obtain ⟨a1, a2⟩ := e4 hb
              refine ⟨a1, ?_⟩
              rw [a2]
              push_cast
              ring
            · intro m h1 h2
              by_cases hm : m = gi
              · subst hm
                exact hcond
              · exact e5 m (by omega) h2
            · intro c hcmem
              obtain ⟨b1, b2, b3, b4, b5, b6, b7⟩ := e6 c hcmem
              exact ⟨b1, b2, b3, by omega, b5, b6, b7⟩
            · intro m h1 h2 h3 h4
              by_cases hm : m = gi
              · subst hm
                exact absurd h4 hmin
              · exact e7 m (by omega) h2 h3 h4
        · next hmod =>
          obtain ⟨new, e1, e2, e3, e4, e5, e6, e7⟩ := ih _ _ _ _ h
          refine ⟨new, e1, by omega, ?_, ?_, ?_, ?_, ?_⟩
          · intro hb
            obtain ⟨a1, a2, a3, a4, a5⟩ := e3 hb
            refine ⟨a1, a2, a3, a4, ?_⟩
            rw [a5]
            push_cast
            ring
          · intro hb
            obtain ⟨a1, a2⟩ := e4 hb
            refine ⟨a1, ?_⟩
            rw [a2]
            push_cast
            ring
          · intro m h1 h2
            by_cases hm : m = gi
            · subst hm
              exact hcond
            · exact e5 m (by omega) h2
          · intro c hcmem
            obtain ⟨b1, b2, b3, b4, b5, b6, b7⟩ := e6 c hcmem
            exact ⟨b1, b2, b3, by omega, b5, b6, b7⟩
          · intro m h1 h2 h3 h4
            by_cases hm : m = gi
            · subst hm
              exact absurd h3 hmod
            · exact e7 m (by omega) h2 h3 h4
    · next hcond =>
      simp only [Option.some.injEq] at h
      subst h
      refine ⟨[], by simp, le_rfl, by simp, ?_, ?_, by simp, ?_⟩
      · intro _
        exact ⟨hcond, by simp⟩
      · intro m h1 h2
        simp only at h2
        omega
      · intro m h1 h2
        simp only at h2
        rcases h2 with h2 | ⟨h2, _⟩
        · omega
        · simp at h2

/-- A point of the sampling square passes the corner test of line 264. -/
theorem square_inside_corner_test {L x y : K} (hx0 : -(L / 2) ≤ x) (hx1 : x ≤ L / 2)
    (hy0 : -(L / 2) ≤ y) (hy1 : y ≤ L / 2) : x * x + y * y ≤ L * L := by
  have hL : 0 ≤ L := by linarith
  nlinarith [mul_nonneg (sub_nonneg.mpr hx1) (by linarith : 0 ≤ x + L / 2),
    mul_nonneg (sub_nonneg.mpr hy1) (by linarith : 0 ≤ y + L / 2), mul_nonneg hL hL]

/-- A point drawn by lines 255-256 from a value of `rand()` in `[0, RAND_MAX]` lies in
`[-L/2, L/2]`. -/
theorem sampled_coordinate_in_square {L : K} {r m : ℤ} (hL : 0 ≤ L) (hm : 0 < m) (hr0 : 0 ≤ r)
    (hr1 : r ≤ m) :
    -(L / 2) ≤ ((r : K) / (m : K) - 1 / 2) * L ∧ ((r : K) / (m : K) - 1 / 2) * L ≤ L / 2 := by
  have hmK : (0 : K) < (m : K) := by exact_mod_cast hm
  have h0 : (0 : K) ≤ (r : K) / (m : K) := div_nonneg (by exact_mod_cast hr0) hmK.le
  have h1 : (r : K) / (m : K) ≤ 1 := by
    rw [div_le_one hmK]
    exact_mod_cast hr1
  constructor
  · nlinarith
  · nlinarith

theorem hitCountAfter_succ (hit : ℕ → ℤ) (m : ℕ) :
    hitCountAfter hit (m + 1) = hitCountAfter hit m + hit m := by
  unfold hitCountAfter
  rw [List.range_succ, List.map_append, List.sum_append]
  simp

theorem hitCountAfter_zero_of_all_zero (hit : ℕ → ℤ) (m : ℕ) (h : ∀ k, k < m → hit k = 0) :
    hitCountAfter hit m = 0 := by
  induction m with
  | zero => rfl
  | succ m ih =>
    rw [hitCountAfter_succ, ih (fun k hk => h k (by omega)), h m (by omega)]
    rfl

/-- The stopping condition is false at a check whose hit count is 0 or the guess count. -/
theorem stopNow_degenerate (lib : CLib K) (m hc : ℤ) (hm : 0 < m) (h : hc = 0 ∨ hc = m) :
    stopNow (convCheck lib m hc) = false := by
  have hmK : (m : K) ≠ 0 := by exact_mod_cast hm.ne'
  rcases h with h | h
  · subst h
    simp [stopNow, convCheck]
  · subst h
    simp [stopNow, convCheck, div_self hmK]

/-- A guess loop in which no convergence check stops makes `N = ⌊L²⌋` guesses and ends at
its test: from the state after `j` guesses, with fuel for the `N - j` guesses left. -/
theorem guessLoop_runs_to_cap (lib : CLib K) (NO_LUT : Bool) (chainFuel : ℕ)
    (atoms : ℕ → ATOM_T K) (lookupGrid : ℤ → Option ℕ) (len : ℤ) (RS_proj : ℕ → K)
    (pdb : PDB_STRUCT_T K) (g : K) (ri : ℕ) (hit : ℕ → ℤ) (N : ℕ)
    (hN : N = (⌊pdb.L * pdb.L⌋).toNat)
    (hhit : ∀ k, k < N →
      guessHit lib NO_LUT chainFuel atoms lookupGrid len RS_proj pdb g (ri + 2 * k)
        = some (hit k))
    (hns : ∀ m : ℕ, 1 ≤ m → m ≤ N → (m : ℤ) % 100 = 0 →
      stopNow (convCheck lib (m : ℤ) (hitCountAfter hit m)) = false)
    (fuel j : ℕ) (cs : List (ConvCheck K)) (hj : j + fuel = N) :
    ∃ e, guessLoop lib NO_LUT chainFuel atoms lookupGrid len RS_proj pdb g fuel ((j : ℤ) + 1)
        (hitCountAfter hit j) (ri + 2 * j) cs = some e ∧
      e.broke = false ∧ e.guessIndex = (N : ℤ) + 1 ∧ e.hitCount = hitCountAfter hit N ∧
      e.randIdx = ri + 2 * N := by
  have hfloor0 : 0 ≤ ⌊pdb.L * pdb.L⌋ := Int.floor_nonneg.mpr (mul_self_nonneg pdb.L)
  have hNfl : (N : ℤ) = ⌊pdb.L * pdb.L⌋ := by
    rw [hN]
    exact Int.toNat_of_nonneg hfloor0
  induction fuel generalizing j cs with
  | zero =>
    have hjn : j = N := by omega
    subst hjn
    have hcond : ¬ ((((j : ℤ) + 1 : ℤ) : K) ≤ pdb.L * pdb.L) := by
      rw [not_le]
      have : ⌊pdb.L * pdb.L⌋ < (j : ℤ) + 1 := by omega
      exact Int.floor_lt.mp this
    simp only [guessLoop, if_neg hcond]
    exact ⟨_, rfl, rfl, rfl, rfl, rfl⟩
  | succ fuel ih =>
    have hjn : j < N := by omega
    have hcond : (((j : ℤ) + 1 : ℤ) : K) ≤ pdb.L * pdb.L := by
      apply Int.le_floor.mp
      omega
    have hnext : ((j : ℤ) + 1 + 1) = (((j + 1 : ℕ) : ℤ) + 1) := by
      push_cast
      ring
    have hri : ri + 2 * j + 2 = ri + 2 * (j + 1) := by ring
    have hrec := ih (j + 1)
    simp only [guessLoop, if_pos hcond, hhit j hjn]
    rw [← hitCountAfter_succ, hnext, hri]
    split
    · next hmod =>
      split
      · have hstop := hns (j + 1) (by omega) (by omega) (by
          push_cast
          exact hmod)
        have hcast : (((j + 1 : ℕ) : ℤ)) = (j : ℤ) + 1 := by push_cast; ring
        rw [hcast] at hstop
        rw [hstop]
        simp only [Bool.false_eq_true, if_false]
        exact hrec _ (by omega)
      · exact hrec _ (by omega)
    · exact hrec _ (by omega)

/-- A guess depends on the stream of `rand()` only through the two values it draws. -/
theorem guessHit_of_rand_eq (lib : CLib K) (NO_LUT : Bool) (chainFuel : ℕ)
    (atoms : ℕ → ATOM_T K) (lookupGrid : ℤ → Option ℕ) (len : ℤ) (RS_proj : ℕ → K)
    (pdb : PDB_STRUCT_T K) (g : K) (a b : ℕ) (h0 : lib.rand a = lib.rand b)
    (h1 : lib.rand (a + 1) = lib.rand (b + 1)) :
    guessHit lib NO_LUT chainFuel atoms lookupGrid len RS_proj pdb g a =
      guessHit lib NO_LUT chainFuel atoms lookupGrid len RS_proj pdb g b := by
  unfold guessHit
  rw [h0, h1]

end LoopLemmas

section CrossLemmas

variable {K : Type} [LinearOrderedField K] [FloorRing K]

/-- A monadic fold whose steps keep an invariant and extend a log by a list determined by
the element keeps the invariant and extends the log by the concatenation. -/
theorem foldlM_log {σ α γ : Type} (f : σ → α → Option σ) (view : σ → List γ)
    (Inv : σ → Prop) (sched : α → List γ)
    (step : ∀ s a s2, Inv s → f s a = some s2 → Inv s2 ∧ view s2 = view s ++ sched a) :
    ∀ (l : List α) (s s2 : σ), Inv s → l.foldlM f s = some s2 →
      Inv s2 ∧ view s2 = view s ++ l.flatMap sched := by
  intro l
  induction l with
  | nil =>
    intro s s2 hs h
    simp only [List.foldlM_nil, Option.pure_def, Option.some.injEq] at h
    subst h
    exact ⟨hs, by simp⟩
  | cons a l ih =>
    intro s s2 hs h
    simp only [List.foldlM_cons, Option.bind_eq_bind] at h
    cases hfa : f s a with
    | none => simp [hfa] at h
    | some s1 =>
      rw [hfa] at h
      simp only [Option.some_bind] at h
      obtain ⟨i1, v1⟩ := step s a s1 hs hfa
      obtain ⟨i2, v2⟩ := ih s1 s2 i1 h
      refine ⟨i2, ?_⟩
      rw [v2, v1, List.flatMap_cons, List.append_assoc]

/-- One orientation: the accumulators and the log after the body of the `phiStep` loop. -/
theorem phiBody_spec (lib : CLib K) (NO_LUT : Bool) (P : PDB_STRUCT_T K) (g : K) (len : ℤ)
    (theta : K) (nPhiSteps : ℤ) (st st2 : CrossState K) (phiStep : ℤ)
    (h : phiBody lib NO_LUT P g len theta nPhiSteps st phiStep = some st2) :
    ∃ o, st2.log = st.log ++ [o] ∧ st2.angleCount = st.angleCount + 1 ∧
      st2.meanArea = st.meanArea + o.areaEstimate ∧
      st2.meanError = st.meanError + o.stdDevEstimate ∧
      o.theta = theta ∧ o.phi = 2 * PI * (phiStep : K) / (nPhiSteps : K) ∧
      IsOrientationRun lib NO_LUT P g len o ∧ st2.RStheta = st.RStheta := by
  unfold phiBody at h
  dsimp only at h
  split at h
  · simp at h
  · next e he =>
    simp only [Option.some.injEq] at h
    subst h
    refine ⟨_, rfl, rfl, rfl, rfl, rfl, rfl, ?_, rfl⟩
    exact ⟨_, _, _, _, e, he, rfl, rfl, rfl, rfl, rfl, rfl, rfl, rfl⟩

theorem phiBody_inv (lib : CLib K) (NO_LUT : Bool) (P : PDB_STRUCT_T K) (g : K) (len : ℤ)
    (theta : K) (nPhiSteps : ℤ) (st st2 : CrossState K) (phiStep : ℤ)
    (hinv : LogInv lib NO_LUT P g len st)
    (h : phiBody lib NO_LUT P g len theta nPhiSteps st phiStep = some st2) :
    LogInv lib NO_LUT P g len st2 ∧
    st2.log.map (fun o => (o.theta, o.phi)) =
      st.log.map (fun o => (o.theta, o.phi)) ++
        [(theta, 2 * PI * (phiStep : K) / (nPhiSteps : K))] := by
  obtain ⟨o, h1, h2, h3, h4, h5, h6, h7, _⟩ :=
    phiBody_spec lib NO_LUT P g len theta nPhiSteps st st2 phiStep h
  obtain ⟨i1, i2, i3, i4⟩ := hinv
  refine ⟨⟨?_, ?_, ?_, ?_⟩, ?_⟩
  · rw [h2, h1, i1]
    simp
  · rw [h3, h1, i2]
    simp
  · rw [h4, h1, i3]
    simp
  · intro o2 ho2
    rw [h1] at ho2
    rcases List.mem_append.mp ho2 with ho2 | ho2
    · exact i4 o2 ho2
    · simp only [List.mem_singleton] at ho2
      subst ho2
      exact h7
  · rw [h1, List.map_append, List.map_singleton, h5, h6]

/-- The orientations of one `thetaStep`: the log grows by one record per `phiStep`. -/
theorem thetaBody_inv (lib : CLib K) (NO_LUT : Bool) (P : PDB_STRUCT_T K) (g : K) (len : ℤ)
    (nThetaSteps nPhiStepsMax : ℤ) (st st2 : CrossState K) (thetaStep : ℤ)
    (hinv : LogInv lib NO_LUT P g len st)
    (h : thetaBody lib NO_LUT P g len nThetaSteps nPhiStepsMax st thetaStep = some st2) :
    LogInv lib NO_LUT P g len st2 ∧
    st2.log.map (fun o => (o.theta, o.phi)) =
      st.log.map (fun o => (o.theta, o.phi)) ++
        (steps (nPhiStepsAt lib nThetaSteps nPhiStepsMax thetaStep)).map
          (fun (phiStep : ℤ) =>
            ((PI * (thetaStep : K) / (nThetaSteps : K) : K),
             (2 * PI * (phiStep : K) /
                ((nPhiStepsAt lib nThetaSteps nPhiStepsMax thetaStep : ℤ) : K) : K))) := by
  unfold thetaBody at h
  dsimp only at h
  have key := foldlM_log
    (phiBody lib NO_LUT P g len (PI * (thetaStep : K) / (nThetaSteps : K))
      (nPhiStepsAt lib nThetaSteps nPhiStepsMax thetaStep))
    (fun s => s.log.map (fun o => (o.theta, o.phi)))
    (fun s => LogInv lib NO_LUT P g len s)
    (fun (phiStep : ℤ) => [((PI * (thetaStep : K) / (nThetaSteps : K) : K),
           (2 * PI * (phiStep : K) /
              ((nPhiStepsAt lib nThetaSteps nPhiStepsMax thetaStep : ℤ) : K) : K))])
    (fun s a s2 hs hf => phiBody_inv lib NO_LUT P g len _ _ s s2 a hs hf)
    (steps (nPhiStepsAt lib nThetaSteps nPhiStepsMax thetaStep)) _ st2
    (by exact hinv) h
  obtain ⟨k1, k2⟩ := key
  refine ⟨k1, ?_⟩
  simp only at k2
  rw [k2]
  congr 1
  induction (steps (nPhiStepsAt lib nThetaSteps nPhiStepsMax thetaStep)) with
  | nil => rfl
  | cons a l ih => simp [List.flatMap_cons, ih]

/-- What a completed call of `crossArea` leaves, in terms of its log of orientations. -/
theorem crossArea_spec (lib : CLib K) (NO_LUT : Bool) (heap : CrossState K)
    (loaded : PDB_STRUCT_T K) (nThetaSteps nPhiStepsMax : ℤ) (g : K) (r : CrossResult K)
    (h : crossArea lib NO_LUT heap loaded nThetaSteps nPhiStepsMax g = some r) :
    r.PDB_struct = { loaded with L := loaded.L + 2 * (g + loaded.largestAtomicRadius) } ∧
    r.angleCount = (r.log.length : ℤ) ∧
    r.meanArea = (r.log.map (fun o => o.areaEstimate)).sum / (r.log.length : K) ∧
    r.meanError = (r.log.map (fun o => o.stdDevEstimate)).sum / (r.log.length : K) ∧
    r.totalESE = r.meanError / lib.sqrt ((r.log.length : K) - 1) ∧
    r.log.map (fun o => (o.theta, o.phi)) =
      (steps nThetaSteps).flatMap (fun (thetaStep : ℤ) =>
        (steps (nPhiStepsAt lib nThetaSteps nPhiStepsMax thetaStep)).map
          (fun (phiStep : ℤ) =>
            ((PI * (thetaStep : K) / (nThetaSteps : K) : K),
             (2 * PI * (phiStep : K) /
                ((nPhiStepsAt lib nThetaSteps nPhiStepsMax thetaStep : ℤ) : K) : K)))) ∧
    ∀ o, o ∈ r.log → IsOrientationRun lib NO_LUT r.PDB_struct g
      (1 + toInt (r.PDB_struct.L / (g + r.PDB_struct.largestAtomicRadius))) o := by
  unfold crossArea at h
  dsimp only at h
  split at h
  · simp at h
  · next st hst =>
    simp only [Option.some.injEq] at h
    subst h
    dsimp only
    obtain ⟨⟨i1, i2, i3, i4⟩, k2⟩ := foldlM_log
      (thetaBody lib NO_LUT
        { loaded with L := loaded.L + 2 * (g + loaded.largestAtomicRadius) } g
        (1 + toInt ((loaded.L + 2 * (g + loaded.largestAtomicRadius)) /
          (g + loaded.largestAtomicRadius))) nThetaSteps nPhiStepsMax)
      (fun s => s.log.map (fun o => (o.theta, o.phi)))
      (fun s => LogInv lib NO_LUT
        { loaded with L := loaded.L + 2 * (g + loaded.largestAtomicRadius) } g
        (1 + toInt ((loaded.L + 2 * (g + loaded.largestAtomicRadius)) /
          (g + loaded.largestAtomicRadius))) s)
      (fun (thetaStep : ℤ) =>
        (steps (nPhiStepsAt lib nThetaSteps nPhiStepsMax thetaStep)).map
          (fun (phiStep : ℤ) =>
            ((PI * (thetaStep : K) / (nThetaSteps : K) : K),
             (2 * PI * (phiStep : K) /
                ((nPhiStepsAt lib nThetaSteps nPhiStepsMax thetaStep : ℤ) : K) : K))))
      (fun s a s2 hs hf => thetaBody_inv lib NO_LUT _ g _ nThetaSteps nPhiStepsMax s s2 a hs hf)
      (steps nThetaSteps) _ st
      (by
        refine ⟨?_, ?_, ?_, ?_⟩
        · simp
        · simp
        · simp
        · intro o ho
          simp at ho)
      hst
    simp only [List.map_nil, List.nil_append] at k2
    refine ⟨rfl, i1, ?_, ?_, ?_, k2, i4⟩
    · rw [i2, i1, Int.cast_natCast]
    · rw [i3, i1, Int.cast_natCast]
    · rw [i3, i1, Int.cast_natCast]

/-- The example run that converges: one atom of radius 1 at the origin, loaded box side 32
(side 34 after enlargement, cap 1156), probe radius 0, one orientation; the first point drawn
is the corner `(-17, -17)` (a miss), all later points are near the centre (hits).  The loop
is left by `break` at guess 1100 with 1099 hits. -/
theorem exampleRun_breaks_at_1100 :
    (crossArea (exampleLib (fun k => if k < 2 then 0 else 16383)) false exampleHeap
        (loadedOneAtom 32) 1 2 0).map
      (fun r => r.log.map (fun o => (o.guessIndex, o.hitCount, o.broke)))
        = some [(1100, 1099, true)] := by
  decide!

end CrossLemmas

section RotationLemmas

variable {K : Type} [LinearOrderedField K] [FloorRing K]

end RotationLemmas

section MainLemmas

variable {K : Type} [LinearOrderedField K] [FloorRing K]

end MainLemmas

section Claims

variable {K : Type} [LinearOrderedField K] [FloorRing K]

/-- C2, at the failing input: one atom of radius 1 projected at `(1, 2)`, box side 4, probe
radius 0, query point `(2, 2)` at distance exactly 1 from the atom (the point drawn when
`rand()` returns `RAND_MAX` twice).  The grid test returns 0 (strict comparison of line 547),
the exhaustive scan of the `NO_LUT` branch adds 1 to `hitCount` (non-strict comparison of
line 293). -/
theorem C2_grid_vs_exhaustive_at_tangency :
    lookupGridTestCollision 1
      (fillLookupGrid nullGrid 5 projAt12 freshTags oneAtom 0).2 2 2
      (fillLookupGrid nullGrid 5 projAt12 freshTags oneAtom 0).1 5 oneAtom 0 = some 0 ∧
    exhaustiveScan projAt12 oneAtom 0 2 2 oneAtom.nAtoms 0 = 1 ∧
    guessHit (exampleLib (fun _ => 32767)) false 1
      (fillLookupGrid nullGrid 5 projAt12 freshTags oneAtom 0).2
      (fillLookupGrid nullGrid 5 projAt12 freshTags oneAtom 0).1 5 projAt12 oneAtom 0 0
        = some 0 ∧
    guessHit (exampleLib (fun _ => 32767)) true 1
      (fillLookupGrid nullGrid 5 projAt12 freshTags oneAtom 0).2
      (fillLookupGrid nullGrid 5 projAt12 freshTags oneAtom 0).1 5 projAt12 oneAtom 0 0
        = some 1 := by
  decide!

/-- C3. Stopping rule of the guess loop: in every orientation of a completed call, the loop
is left by `break` only at a guess count `g` that is a multiple of 100 with `g ≥ 100`, and
then `p_hit = hitCount / g` and `errorRatio = sqrt(p_hit (1 - p_hit) / g) / p_hit` satisfy
`errorRatio < 0.001`, `p_hit ≠ 0`, `p_hit ≠ 1`; conversely, for every multiple `m` of 100
whose guess was made, the convergence check was evaluated at `m`, and if its three
conditions hold the loop was left by `break` at `m`. -/
theorem C3_stopping_rule (lib : CLib K) (NO_LUT : Bool) (heap : CrossState K)
    (loaded : PDB_STRUCT_T K) (nThetaSteps nPhiStepsMax : ℤ) (g : K) (r : CrossResult K)
    (h : crossArea lib NO_LUT heap loaded nThetaSteps nPhiStepsMax g = some r) :
    ∀ o, o ∈ r.log →
      (o.broke = true →
        o.guessIndex % 100 = 0 ∧ 100 ≤ o.guessIndex ∧
        lib.sqrt ((o.hitCount : K) / (o.guessIndex : K) *
            (1 - (o.hitCount : K) / (o.guessIndex : K)) / (o.guessIndex : K)) /
          ((o.hitCount : K) / (o.guessIndex : K)) < 1 / 1000 ∧
        (o.hitCount : K) / (o.guessIndex : K) ≠ 0 ∧
        (o.hitCount : K) / (o.guessIndex : K) ≠ 1) ∧
      (∀ m : ℤ, 1 ≤ m → m % 100 = 0 →
        (m < o.guessIndex ∨ (o.broke = true ∧ m = o.guessIndex)) →
        ∃ c, c ∈ o.checks ∧ c.guessIndex = m ∧
          c.p_hit = (c.hitCount : K) / (m : K) ∧
          c.stdDevEstimate = lib.sqrt (c.p_hit * (1 - c.p_hit) / (m : K)) ∧
          c.errorRatio = c.stdDevEstimate / c.p_hit ∧
          ((c.errorRatio < 1 / 1000 ∧ c.p_hit ≠ 0 ∧ c.p_hit ≠ 1) →
            o.broke = true ∧ o.guessIndex = m ∧ o.hitCount = c.hitCount)) := by
  intro o ho
  obtain ⟨_, _, _, _, _, _, hruns⟩ :=
    crossArea_spec lib NO_LUT heap loaded nThetaSteps nPhiStepsMax g r h
  obtain ⟨atoms, grid, RS_proj, ri, e, hrun, o1, o2, _, o4, o5, _, _, _⟩ := hruns o ho
  obtain ⟨new, e1, _, e3, _, _, e6, e7⟩ := guessLoop_spec lib NO_LUT _ atoms grid _ RS_proj _ g
    _ 1 0 ri [] e hrun
  rw [List.nil_append] at e1
  rw [o1, o2, o4, o5, e1]
  constructor
  · intro hb
    obtain ⟨a1, a2, a3, _, _⟩ := e3 hb
    refine ⟨a1, a2, ?_⟩
    simpa [stopNow, convCheck] using a3
  · intro m hm1 hm2 hm3
    have hm4 : MIN_GUESSES ≤ m := by
      unfold MIN_GUESSES
      omega
    obtain ⟨c, c1, c2⟩ := e7 m hm1 hm3 hm2 hm4
    obtain ⟨b1, _, _, _, _, b6, _⟩ := e6 c c1
    have hp : c.p_hit = (c.hitCount : K) / (c.guessIndex : K) := congrArg ConvCheck.p_hit b1
    have hsd : c.stdDevEstimate =
        lib.sqrt ((c.hitCount : K) / (c.guessIndex : K) *
          (1 - (c.hitCount : K) / (c.guessIndex : K)) / (c.guessIndex : K)) :=
      congrArg ConvCheck.stdDevEstimate b1
    have her : c.errorRatio =
        lib.sqrt ((c.hitCount : K) / (c.guessIndex : K) *
          (1 - (c.hitCount : K) / (c.guessIndex : K)) / (c.guessIndex : K)) /
            ((c.hitCount : K) / (c.guessIndex : K)) :=
      congrArg ConvCheck.errorRatio b1
    refine ⟨c, c1, c2, ?_, ?_, ?_, ?_⟩
    · rw [hp, c2]
    · rw [hsd, hp, c2]
    · rw [her, hsd, hp]
    · intro hc
      have hs : stopNow c = true := by
        simpa [stopNow] using hc
      obtain ⟨d1, d2, d3⟩ := b6 hs
      exact ⟨d1, by rw [← d2, c2], d3.symm⟩

/-- C3, at a concrete input: one atom of radius 1 at the origin, loaded box side 32 (side 34
after enlargement, cap 1156), probe radius 0, one orientation; the first point drawn is the
corner `(-17, -17)` (a miss), all later points are near the centre (hits).  The loop is left
by `break` at guess 1100 with 1099 hits. -/
theorem C3_stopping_rule_witness :
    ∃ r, crossArea (exampleLib (fun k => if k < 2 then 0 else 16383)) false exampleHeap
        (loadedOneAtom 32) 1 2 0 = some r ∧
      r.log.map (fun o => (o.guessIndex, o.hitCount, o.broke)) = [(1100, 1099, true)] ∧
      ∀ o, o ∈ r.log → o.broke = true → o.guessIndex % 100 = 0 ∧ 100 ≤ o.guessIndex := by
  obtain ⟨r, hr, hlog⟩ := Option.map_eq_some'.mp exampleRun_breaks_at_1100
  refine ⟨r, hr, hlog, ?_⟩
  intro o ho hb
  have hthm := (C3_stopping_rule (exampleLib (fun k => if k < 2 then 0 else 16383)) false
    exampleHeap (loadedOneAtom 32) 1 2 0 r hr o ho).1 hb
  exact ⟨hthm.1, hthm.2.1⟩

/-- C4, at the failing input: one atom of radius 1 at the origin, loaded box side 8 (side 10
after enlargement, guess cap `⌊L²⌋ = 100`), probe radius 0, one orientation, every point
drawn near the centre.  The loop makes 100 guesses (200 calls of `rand()`), all hits, and
ends at its test with `guessIndex = 101`; the outputs use `p_hit = 100 / 101` and
`areaEstimate = 10000 / 101`, not `100 / 100` and `100`. -/
theorem C4_cap_exit_divides_by_guessIndex_after_loop :
    (crossArea (exampleLib (fun _ => 16383)) false exampleHeap (loadedOneAtom 8) 1 2 0).map
      (fun r => r.log.map (fun o => (o.guessIndex, o.hitCount, o.randCalls, o.broke)))
        = some [(101, 100, 200, false)] ∧
    (crossArea (exampleLib (fun _ => 16383)) false exampleHeap (loadedOneAtom 8) 1 2 0).map
      (fun r => (r.PDB_struct.L, r.log.map (fun o => (o.p_hit, o.areaEstimate))))
        = some (10, [(100 / 101, 10000 / 101)]) := by
  decide!

/-- C5. Aggregation: a completed call with `n = angleCount` orientations returns the sum of
the per-orientation areas divided by `n`, the reported Total ESE is the sum of the
per-orientation errors divided by `n`, divided by `sqrt (n - 1)`; `angleCount` is the number
of orientations in the log, and every orientation adds its two estimates once and
increments `angleCount` by 1. -/
theorem C5_aggregation (lib : CLib K) (NO_LUT : Bool) (heap : CrossState K)
    (loaded : PDB_STRUCT_T K) (nThetaSteps nPhiStepsMax : ℤ) (g : K) (r : CrossResult K)
    (h : crossArea lib NO_LUT heap loaded nThetaSteps nPhiStepsMax g = some r) :
    r.angleCount = (r.log.length : ℤ) ∧
    r.meanArea = (r.log.map (fun o => o.areaEstimate)).sum / (r.angleCount : K) ∧
    r.totalESE = (r.log.map (fun o => o.stdDevEstimate)).sum / (r.angleCount : K) /
      lib.sqrt ((r.angleCount : K) - 1) ∧
    (∀ (P : PDB_STRUCT_T K) (len : ℤ) (theta : K) (nPhiSteps phiStep : ℤ)
      (st st2 : CrossState K),
      phiBody lib NO_LUT P g len theta nPhiSteps st phiStep = some st2 →
      ∃ o, st2.log = st.log ++ [o] ∧ st2.angleCount = st.angleCount + 1 ∧
        st2.meanArea = st.meanArea + o.areaEstimate ∧
        st2.meanError = st.meanError + o.stdDevEstimate) := by
  obtain ⟨_, h2, h3, h4, h5, _, _⟩ :=
    crossArea_spec lib NO_LUT heap loaded nThetaSteps nPhiStepsMax g r h
  refine ⟨h2, ?_, ?_, ?_⟩
  · rw [h3, h2, Int.cast_natCast]
  · rw [h5, h4, h2, Int.cast_natCast]
  · intro P len theta nPhiSteps phiStep st st2 hst
    obtain ⟨o, a1, a2, a3, a4, _⟩ := phiBody_spec lib NO_LUT P g len theta nPhiSteps st st2
      phiStep hst
    exact ⟨o, a1, a2, a3, a4⟩

/-- C5, at a concrete input: one atom, two theta steps, five orientations. -/
theorem C5_aggregation_witness :
    ∃ r, crossArea (exampleLib (fun _ => 16383)) false exampleHeap (loadedOneAtom 0) 2 4 0
        = some r ∧
      r.angleCount = 5 ∧
      r.meanArea = (r.log.map (fun o => o.areaEstimate)).sum / (r.angleCount : ℚ) := by
  have hrun : (crossArea (exampleLib (fun _ => 16383)) false exampleHeap (loadedOneAtom 0)
      2 4 0).map (fun r => r.angleCount) = some 5 := by
    decide!
  obtain ⟨r, hr, hcount⟩ := Option.map_eq_some'.mp hrun
  have hthm := C5_aggregation (exampleLib (fun _ => 16383)) false exampleHeap
    (loadedOneAtom 0) 2 4 0 r hr
  exact ⟨r, hr, hcount, hthm.2.1⟩

/-- C14. Region test is a no-op: for every `L ≥ 0` and every point `(x, y)` of the square
`[-L/2, L/2]²`, `x² + y² ≤ L²`; every point the sampler draws (from values of `rand()` in
`[0, RAND_MAX]`) lies in that square, so the corner test of line 264 passes and the guess
adds to `hitCount` exactly what the collision test returns for the point. -/
theorem C14_region_test_noop (lib : CLib K) (NO_LUT : Bool) (chainFuel : ℕ)
    (atoms : ℕ → ATOM_T K) (lookupGrid : ℤ → Option ℕ) (lookupGridLength : ℤ) (RS_proj : ℕ → K)
    (PDB_struct : PDB_STRUCT_T K) (gasRadius : K) (randIdx : ℕ)
    (hL : 0 ≤ PDB_struct.L) (hmax : 0 < lib.RAND_MAX)
    (hr0 : 0 ≤ lib.rand randIdx ∧ lib.rand randIdx ≤ lib.RAND_MAX)
    (hr1 : 0 ≤ lib.rand (randIdx + 1) ∧ lib.rand (randIdx + 1) ≤ lib.RAND_MAX) :
    (∀ x y : K, -(PDB_struct.L / 2) ≤ x → x ≤ PDB_struct.L / 2 → -(PDB_struct.L / 2) ≤ y →
      y ≤ PDB_struct.L / 2 → x ^ 2 + y ^ 2 ≤ PDB_struct.L ^ 2) ∧
    (-(PDB_struct.L / 2) ≤
        ((lib.rand randIdx : K) / (lib.RAND_MAX : K) - 1 / 2) * PDB_struct.L ∧
      ((lib.rand randIdx : K) / (lib.RAND_MAX : K) - 1 / 2) * PDB_struct.L
        ≤ PDB_struct.L / 2) ∧
    (-(PDB_struct.L / 2) ≤
        ((lib.rand (randIdx + 1) : K) / (lib.RAND_MAX : K) - 1 / 2) * PDB_struct.L ∧
      ((lib.rand (randIdx + 1) : K) / (lib.RAND_MAX : K) - 1 / 2) * PDB_struct.L
        ≤ PDB_struct.L / 2) ∧
    guessHit lib NO_LUT chainFuel atoms lookupGrid lookupGridLength RS_proj PDB_struct
        gasRadius randIdx =
      (if NO_LUT then
        some (exhaustiveScan RS_proj PDB_struct gasRadius
          (((lib.rand randIdx : K) / (lib.RAND_MAX : K) - 1 / 2) * PDB_struct.L)
          (((lib.rand (randIdx + 1) : K) / (lib.RAND_MAX : K) - 1 / 2) * PDB_struct.L)
          PDB_struct.nAtoms 0)
      else
        lookupGridTestCollision chainFuel atoms
          (((lib.rand randIdx : K) / (lib.RAND_MAX : K) - 1 / 2) * PDB_struct.L)
          (((lib.rand (randIdx + 1) : K) / (lib.RAND_MAX : K) - 1 / 2) * PDB_struct.L)
          lookupGrid lookupGridLength PDB_struct gasRadius) := by
  have p0 := sampled_coordinate_in_square hL hmax hr0.1 hr0.2
  have p1 := sampled_coordinate_in_square hL hmax hr1.1 hr1.2
  refine ⟨?_, p0, p1, ?_⟩
  · intro x y hx0 hx1 hy0 hy1
    have := square_inside_corner_test hx0 hx1 hy0 hy1
    simpa [sq] using this
  · unfold guessHit
    dsimp only
    rw [if_pos (square_inside_corner_test p0.1 p0.2 p1.1 p1.2)]

/-- C14, at a concrete input: box side 10, `RAND_MAX = 32767`, `rand()` returning 0 (the
corner `(-5, -5)` of the square). -/
theorem C14_region_test_noop_witness :
    guessHit (exampleLib (fun _ => 0)) true 1 freshTags nullGrid 11 (fun _ => 0)
        (loadedOneAtom 10) 0 0 =
      some (exhaustiveScan (fun _ => 0) (loadedOneAtom 10) 0
        ((((0 : ℤ) : ℚ) / ((32767 : ℤ) : ℚ) - 1 / 2) * 10)
        ((((0 : ℤ) : ℚ) / ((32767 : ℤ) : ℚ) - 1 / 2) * 10) 1 0) :=
  (C14_region_test_noop (exampleLib (fun _ => 0)) true 1 freshTags nullGrid 11 (fun _ => 0)
    (loadedOneAtom 10) 0 0 (by norm_num [loadedOneAtom]) (by decide) (by decide)
    (by decide)).2.2.2

/-- C13. Degenerate hit rate runs to the cap: in an orientation whose collision tests all
return (the `k`-th guess adds `hit k`) and in which, at every multiple of 100 guesses up to
the cap, `hitCount` is 0 or equals the guess count, the stopping rule never fires: the guess
loop makes exactly `⌊L²⌋` guesses and ends at its test, and the body of the `phiStep` loop
completes, adds the orientation's estimates to `meanArea` and `meanError` and increments
`angleCount` by 1; when every guess misses, and `sqrt 0 = 0`, both estimates are 0. -/
theorem C13_degenerate_runs_to_cap (lib : CLib K) (NO_LUT : Bool) (P : PDB_STRUCT_T K)
    (g : K) (len : ℤ) (theta : K) (nPhiSteps : ℤ) (st : CrossState K) (phiStep : ℤ)
    (R : ℕ → K) (F : (ℤ → Option ℕ) × (ℕ → ATOM_T K)) (hit : ℕ → ℤ)
    (hR : R = rotateAndProject (lib.cos (2 * PI * (phiStep : K) / (nPhiSteps : K)))
      (lib.sin (2 * PI * (phiStep : K) / (nPhiSteps : K))) P st.RStheta st.RS_proj)
    (hF : F = fillLookupGrid st.lookupGrid len R st.atomTags P g)
    (hhit : ∀ k : ℕ, (k : ℤ) < ⌊P.L * P.L⌋ →
      guessHit lib NO_LUT P.nAtoms F.2 F.1 len R P g (st.randIdx + 2 * k) = some (hit k))
    (hdeg : ∀ m : ℕ, 1 ≤ m → (m : ℤ) ≤ ⌊P.L * P.L⌋ → (m : ℤ) % 100 = 0 →
      hitCountAfter hit m = 0 ∨ hitCountAfter hit m = (m : ℤ)) :
    ∃ st2 o, phiBody lib NO_LUT P g len theta nPhiSteps st phiStep = some st2 ∧
      st2.log = st.log ++ [o] ∧
      o.broke = false ∧ o.guessIndex = ⌊P.L * P.L⌋ + 1 ∧
      (o.randCalls : ℤ) = 2 * ⌊P.L * P.L⌋ ∧
      o.hitCount = hitCountAfter hit (⌊P.L * P.L⌋).toNat ∧
      st2.angleCount = st.angleCount + 1 ∧
      st2.meanArea = st.meanArea + o.areaEstimate ∧
      st2.meanError = st.meanError + o.stdDevEstimate ∧
      ((∀ k : ℕ, (k : ℤ) < ⌊P.L * P.L⌋ → hit k = 0) → lib.sqrt 0 = 0 →
        o.hitCount = 0 ∧ o.areaEstimate = 0 ∧ o.stdDevEstimate = 0) := by
  have hfloor0 : 0 ≤ ⌊P.L * P.L⌋ := Int.floor_nonneg.mpr (mul_self_nonneg P.L)
  have hNfl : (((⌊P.L * P.L⌋).toNat : ℕ) : ℤ) = ⌊P.L * P.L⌋ := Int.toNat_of_nonneg hfloor0
  obtain ⟨e, he, e1, e2, e3, e4⟩ := guessLoop_runs_to_cap lib NO_LUT P.nAtoms F.2 F.1 len R P g
    st.randIdx hit (⌊P.L * P.L⌋).toNat rfl
    (fun k hk => hhit k (by omega))
    (fun m hm1 hm2 hm3 => stopNow_degenerate lib m _ (by omega)
      (hdeg m hm1 (by omega) hm3))
    (⌊P.L * P.L⌋).toNat 0 [] (by omega)
  simp only [Nat.cast_zero, zero_add, mul_zero, add_zero] at he
  have hH0 : hitCountAfter hit 0 = 0 := rfl
  rw [hH0] at he
  have hbody : phiBody lib NO_LUT P g len theta nPhiSteps st phiStep =
      some { angleCount := st.angleCount + 1
             meanArea := st.meanArea + P.L ^ 2 * ((e.hitCount : K) / (e.guessIndex : K))
             meanError := st.meanError + P.L ^ 2 *
               lib.sqrt ((e.hitCount : K) / (e.guessIndex : K) *
                 (1 - (e.hitCount : K) / (e.guessIndex : K)) / (e.guessIndex : K))
             randIdx := e.randIdx
             RStheta := st.RStheta
             RS_proj := R
             atomTags := F.2
             lookupGrid := F.1
             log := st.log ++ [{ theta := theta
                                 phi := 2 * PI * (phiStep : K) / (nPhiSteps : K)
                                 guessIndex := e.guessIndex
                                 hitCount := e.hitCount
                                 randCalls := e.randIdx - st.randIdx
                                 broke := e.broke
                                 checks := e.checks
                                 p_hit := (e.hitCount : K) / (e.guessIndex : K)
                                 areaEstimate :=
                                   P.L ^ 2 * ((e.hitCount : K) / (e.guessIndex : K))
                                 stdDevEstimate := P.L ^ 2 *
                                   lib.sqrt ((e.hitCount : K) / (e.guessIndex : K) *
                                     (1 - (e.hitCount : K) / (e.guessIndex : K)) /
                                       (e.guessIndex : K)) }] } := by
    unfold phiBody
    dsimp only
    rw [← hR, ← hF, he]
  refine ⟨_, _, hbody, rfl, e1, ?_, ?_, e3, rfl, rfl, rfl, ?_⟩
  · show e.guessIndex = ⌊P.L * P.L⌋ + 1
    rw [e2, hNfl]
  · show ((e.randIdx - st.randIdx : ℕ) : ℤ) = 2 * ⌊P.L * P.L⌋
    rw [e4, Nat.add_sub_cancel_left]
    push_cast
    rw [hNfl]
  · intro hall hs0
    have hz : e.hitCount = 0 := by
      rw [e3]
      exact hitCountAfter_zero_of_all_zero hit _ (fun k hk => hall k (by omega))
    refine ⟨hz, ?_, ?_⟩
    · show P.L ^ 2 * ((e.hitCount : K) / (e.guessIndex : K)) = 0
      rw [hz]
      simp
    · show P.L ^ 2 * lib.sqrt ((e.hitCount : K) / (e.guessIndex : K) *
          (1 - (e.hitCount : K) / (e.guessIndex : K)) / (e.guessIndex : K)) = 0
      rw [hz]
      simp [hs0]

/-- C13, at a concrete input: one atom of radius 1 at the origin, box side 10 (cap 100),
probe radius 0, every point drawn at the corner `(-5, -5)`: 100 guesses, all misses, one
convergence check (at guess 100, with `hitCount = 0`). -/
theorem C13_degenerate_runs_to_cap_witness :
    ∃ (st2 : CrossState ℚ) (o : Orientation ℚ),
      phiBody (exampleLib (fun _ => 0)) false (loadedOneAtom 10) 0 11 PI 1
        exampleHeap 1 = some st2 ∧
      st2.log = [o] ∧ o.broke = false ∧
      o.guessIndex = ⌊(loadedOneAtom (10 : ℚ)).L * (loadedOneAtom (10 : ℚ)).L⌋ + 1 ∧
      st2.angleCount = 0 + 1 ∧
      o.hitCount = 0 ∧ o.areaEstimate = 0 ∧ o.stdDevEstimate = 0 := by
  obtain ⟨st2, o, h1, h2, h3, h4, _, _, h7, _, _, h10⟩ := C13_degenerate_runs_to_cap
    (exampleLib (fun _ => 0)) false (loadedOneAtom 10) 0 11 PI 1 exampleHeap 1
    (rotateAndProject
      ((exampleLib (fun _ => 0)).cos (2 * PI * (((1 : ℤ) : ℚ)) / (((1 : ℤ) : ℚ))))
      ((exampleLib (fun _ => 0)).sin (2 * PI * (((1 : ℤ) : ℚ)) / (((1 : ℤ) : ℚ))))
      (loadedOneAtom 10) (exampleHeap : CrossState ℚ).RStheta
      (exampleHeap : CrossState ℚ).RS_proj)
    (fillLookupGrid (exampleHeap : CrossState ℚ).lookupGrid 11
      (rotateAndProject
        ((exampleLib (fun _ => 0)).cos (2 * PI * (((1 : ℤ) : ℚ)) / (((1 : ℤ) : ℚ))))
        ((exampleLib (fun _ => 0)).sin (2 * PI * (((1 : ℤ) : ℚ)) / (((1 : ℤ) : ℚ))))
        (loadedOneAtom 10) (exampleHeap : CrossState ℚ).RStheta
        (exampleHeap : CrossState ℚ).RS_proj)
      (exampleHeap : CrossState ℚ).atomTags (loadedOneAtom 10) 0)
    (fun _ => 0) rfl rfl
    (by
      intro k _
      rw [guessHit_of_rand_eq _ _ _ _ _ _ _ _ _ ((exampleHeap : CrossState ℚ).randIdx + 2 * k)
        0 rfl rfl]
      beta_reduce
      decide!)
    (by
      intro m _ _ _
      exact Or.inl (hitCountAfter_zero_of_all_zero _ m (fun _ _ => rfl)))
  obtain ⟨h11, h12, h13⟩ := h10 (fun _ _ => rfl) (by decide!)
  exact ⟨st2, o, h1, h2, h3, h4, h7, h11, h12, h13⟩

/-- C15. Grid indexing stays in bounds: with cell size `c = gasRadius + largestAtomicRadius
> 0` and `lookupGridLength = 1 + ⌊L / c⌋`, for a query point `(x, y)` in `[-L/2, L/2]²`
(so `L ≥ 0`) with cell `i = ⌊(x + L/2) / c⌋`, `j = ⌊(y + L/2) / c⌋`: the traced function
returns what `lookupGridTestCollision` returns; every grid index it reads lies in
`[0, lookupGridLength²)`; the indices read are an initial part of `neighbourCells i j`,
they include the centre cell, and they are all of `neighbourCells i j` when the function
returns 0; `neighbourCells i j` holds exactly the indices of the cells `(i + di, j + dj)`,
`di, dj ∈ {-1, 0, 1}`, with both coordinates in `[0, lookupGridLength - 1]`; and for every
atom projected into `[-L/2, L/2]²` the one index at which `fillLookupGrid` writes the grid
for it lies in `[0, lookupGridLength²)`. -/
theorem C15_grid_indexing_in_bounds (pdb : PDB_STRUCT_T K) (gasRadius : K) (RS_proj : ℕ → K)
    (lookupGrid : ℤ → Option ℕ) (atoms : ℕ → ATOM_T K) (lookupGridLength : ℤ) (fuel : ℕ)
    (x y : K)
    (hc : 0 < gasRadius + pdb.largestAtomicRadius)
    (hlen : lookupGridLength = 1 + ⌊pdb.L / (gasRadius + pdb.largestAtomicRadius)⌋)
    (hx : -(pdb.L / 2) ≤ x ∧ x ≤ pdb.L / 2) (hy : -(pdb.L / 2) ≤ y ∧ y ≤ pdb.L / 2) :
    (lookupGridReads fuel atoms x y lookupGrid lookupGridLength pdb gasRadius).2 =
      lookupGridTestCollision fuel atoms x y lookupGrid lookupGridLength pdb gasRadius ∧
    (∀ gi, gi ∈ (lookupGridReads fuel atoms x y lookupGrid lookupGridLength pdb gasRadius).1 →
      0 ≤ gi ∧ gi < lookupGridLength * lookupGridLength) ∧
    (lookupGridReads fuel atoms x y lookupGrid lookupGridLength pdb gasRadius).1 <+:
      neighbourCells ⌊(x + pdb.L / 2) / (gasRadius + pdb.largestAtomicRadius)⌋
        ⌊(y + pdb.L / 2) / (gasRadius + pdb.largestAtomicRadius)⌋ lookupGridLength ∧
    (⌊(x + pdb.L / 2) / (gasRadius + pdb.largestAtomicRadius)⌋ * lookupGridLength +
        ⌊(y + pdb.L / 2) / (gasRadius + pdb.largestAtomicRadius)⌋) ∈
      (lookupGridReads fuel atoms x y lookupGrid lookupGridLength pdb gasRadius).1 ∧
    (lookupGridTestCollision fuel atoms x y lookupGrid lookupGridLength pdb gasRadius = some 0 →
      (lookupGridReads fuel atoms x y lookupGrid lookupGridLength pdb gasRadius).1 =
        neighbourCells ⌊(x + pdb.L / 2) / (gasRadius + pdb.largestAtomicRadius)⌋
          ⌊(y + pdb.L / 2) / (gasRadius + pdb.largestAtomicRadius)⌋ lookupGridLength) ∧
    (∀ gi, gi ∈ neighbourCells ⌊(x + pdb.L / 2) / (gasRadius + pdb.largestAtomicRadius)⌋
          ⌊(y + pdb.L / 2) / (gasRadius + pdb.largestAtomicRadius)⌋ lookupGridLength ↔
      ∃ di dj : ℤ, (di = -1 ∨ di = 0 ∨ di = 1) ∧ (dj = -1 ∨ dj = 0 ∨ dj = 1) ∧
        (0 ≤ ⌊(x + pdb.L / 2) / (gasRadius + pdb.largestAtomicRadius)⌋ + di ∧
          ⌊(x + pdb.L / 2) / (gasRadius + pdb.largestAtomicRadius)⌋ + di
            ≤ lookupGridLength - 1) ∧
        (0 ≤ ⌊(y + pdb.L / 2) / (gasRadius + pdb.largestAtomicRadius)⌋ + dj ∧
          ⌊(y + pdb.L / 2) / (gasRadius + pdb.largestAtomicRadius)⌋ + dj
            ≤ lookupGridLength - 1) ∧
        gi = (⌊(x + pdb.L / 2) / (gasRadius + pdb.largestAtomicRadius)⌋ + di) *
              lookupGridLength +
            (⌊(y + pdb.L / 2) / (gasRadius + pdb.largestAtomicRadius)⌋ + dj)) ∧
    (∀ a,
      (-(pdb.L / 2) ≤ RS_proj (3 * a) ∧ RS_proj (3 * a) ≤ pdb.L / 2) →
      (-(pdb.L / 2) ≤ RS_proj (3 * a + 1) ∧ RS_proj (3 * a + 1) ≤ pdb.L / 2) →
      (0 ≤ cellIndex lookupGridLength RS_proj pdb gasRadius a ∧
        cellIndex lookupGridLength RS_proj pdb gasRadius a
          < lookupGridLength * lookupGridLength) ∧
      ∀ st : (ℤ → Option ℕ) × (ℕ → ATOM_T K),
        (fillLookupGridStep lookupGridLength RS_proj pdb gasRadius st a).1 =
          Function.update st.1 (cellIndex lookupGridLength RS_proj pdb gasRadius a)
            (some a)) := by
  have ehalf : pdb.L * (1 / 2) = pdb.L / 2 := by ring
  have bx := cell_coord_bounds hc hx.1 hx.2
  have by1 := cell_coord_bounds hc hy.1 hy.2
  rw [ehalf, ← hlen] at bx by1
  have hscan := lookupGridReads_eq_scan fuel atoms x y lookupGrid lookupGridLength pdb
    gasRadius
  rw [ehalf, add_comm (pdb.L / 2) x, add_comm (pdb.L / 2) y, bx.1, by1.1] at hscan
  have hmem := mem_neighbourCells bx.2.1 bx.2.2 by1.2.1 by1.2.2
  have hsnd := lookupGridReads_snd fuel atoms x y lookupGrid lookupGridLength pdb gasRadius
  have hpre : (lookupGridReads fuel atoms x y lookupGrid lookupGridLength pdb gasRadius).1 <+:
      neighbourCells ⌊(x + pdb.L / 2) / (gasRadius + pdb.largestAtomicRadius)⌋
        ⌊(y + pdb.L / 2) / (gasRadius + pdb.largestAtomicRadius)⌋ lookupGridLength := by
    rw [hscan]
    exact scanCells_prefix _ _
  refine ⟨hsnd, ?_, hpre, ?_, ?_, hmem, ?_⟩
  · intro gi hgi
    obtain ⟨di, dj, _, _, ⟨a0, a1⟩, ⟨b0, b1⟩, rfl⟩ := (hmem gi).mp (hpre.subset hgi)
    exact flat_index_range a0 (by omega) b0 (by omega)
  · rw [hscan]
    exact scanCells_head _ _ _
  · intro h0
    rw [← hsnd, hscan] at h0
    rw [hscan]
    exact scanCells_full _ _ h0
  · intro a hax hay
    exact ⟨(cellIndex_in_box pdb gasRadius RS_proj lookupGridLength hc hlen a hax hay).2.2.2,
      fun st => fillLookupGridStep_fst lookupGridLength RS_proj pdb gasRadius st a⟩

/-- C15, at a concrete input: one atom projected at `(1, 2)`, box side 4, cell size 1, grid
length 5, query point at the corner `(-2, -2)` of the square, whose cell is `(0, 0)`. -/
theorem C15_grid_indexing_in_bounds_witness :
    (lookupGridReads 1 (fillLookupGrid nullGrid 5 projAt12 freshTags oneAtom 0).2 (-2) (-2)
        (fillLookupGrid nullGrid 5 projAt12 freshTags oneAtom 0).1 5 oneAtom 0).2 =
      lookupGridTestCollision 1 (fillLookupGrid nullGrid 5 projAt12 freshTags oneAtom 0).2
        (-2) (-2) (fillLookupGrid nullGrid 5 projAt12 freshTags oneAtom 0).1 5 oneAtom 0 ∧
    (∀ gi, gi ∈ (lookupGridReads 1 (fillLookupGrid nullGrid 5 projAt12 freshTags oneAtom 0).2
        (-2) (-2) (fillLookupGrid nullGrid 5 projAt12 freshTags oneAtom 0).1 5 oneAtom 0).1 →
      0 ≤ gi ∧ gi < 5 * 5) ∧
    (lookupGridReads 1 (fillLookupGrid nullGrid 5 projAt12 freshTags oneAtom 0).2 (-2) (-2)
        (fillLookupGrid nullGrid 5 projAt12 freshTags oneAtom 0).1 5 oneAtom 0).1 <+:
      neighbourCells ⌊((-2 : ℚ) + oneAtom.L / 2) / (0 + oneAtom.largestAtomicRadius)⌋
        ⌊((-2 : ℚ) + oneAtom.L / 2) / (0 + oneAtom.largestAtomicRadius)⌋ 5 :=
  have h := C15_grid_indexing_in_bounds oneAtom 0 projAt12
    (fillLookupGrid nullGrid 5 projAt12 freshTags oneAtom 0).1
    (fillLookupGrid nullGrid 5 projAt12 freshTags oneAtom 0).2 5 1 (-2) (-2)
    (by norm_num [oneAtom]) (by norm_num [oneAtom])
    (by norm_num [oneAtom]) (by norm_num [oneAtom])
  ⟨h.1, h.2.1, h.2.2.1⟩

end Claims

end CrossArea
